import Mathlib

/-!
Verification of the conversation reconciliation engine of the
dashboard-elitelife repository (Evolution API service module).

Strings are modelled as lists of characters. Timestamps and the
created_at column are modelled as integer epoch milliseconds; the
JavaScript Date string round-trip (toISOString / new Date(...).getTime())
is the identity in this model. Char.toLower models the JavaScript
toLowerCase call (they agree on ASCII; the Arabic literals used by the
engine have no case).
-/

namespace EliteLife

/-- Whitespace test modelling the JavaScript regular expression class
backslash-s and the trim method (space, tab, newline, carriage return,
vertical tab, form feed, no-break space). -/
def isJsSpace (c : Char) : Bool :=
  c == ' ' || c == '\t' || c == '\n' || c == '\r' ||
  c == Char.ofNat 11 || c == Char.ofNat 12 || c == Char.ofNat 160

/-- Models the JavaScript trim method: drop whitespace at both ends. -/
def jsTrim (s : List Char) : List Char :=
  ((s.dropWhile isJsSpace).reverse.dropWhile isJsSpace).reverse

/-- Models replacing every maximal whitespace run by one space, as the
source regex replace of backslash-s-plus with a single space does. The
boolean argument records whether the previous character was whitespace. -/
def collapseWs : Bool → List Char → List Char
  | _, [] => []
  | prevSpace, c :: rest =>
    if isJsSpace c then
      if prevSpace then collapseWs true rest
      else ' ' :: collapseWs true rest
    else c :: collapseWs false rest

/-- Truthiness of an optional string, as JavaScript sees it: undefined
and the empty string are falsy. -/
def truthyStr : Option (List Char) → Bool
  | none => false
  | some s => !s.isEmpty

/-- Models the JavaScript or-default idiom (value or default) on an
optional string field: empty or absent yields the default. -/
def jsOr (a : Option (List Char)) (b : List Char) : List Char :=
  match a with
  | none => b
  | some s => if s.isEmpty then b else s

/-- Models the JavaScript string replace method with a string pattern:
only the first occurrence of the pattern is removed (the replacement
used by the source is always the empty string). -/
def replaceFirst : List Char → List Char → List Char
  | [], _ => []
  | c :: rest, pat =>
    if pat.isPrefixOf (c :: rest) then (c :: rest).drop pat.length
    else c :: replaceFirst rest pat

/-- Models the JavaScript includes method: does pat occur inside s. -/
def containsSub (pat : List Char) : List Char → Bool
  | [] => pat.isPrefixOf []
  | c :: rest => pat.isPrefixOf (c :: rest) || containsSub pat rest

/-- Models the JavaScript indexOf method, returning the first index at
which pat occurs in s, or none when it does not occur. -/
def firstIndexOf (s pat : List Char) : Option Nat :=
  (List.range (s.length + 1)).find? (fun i => pat.isPrefixOf (s.drop i))

/-- Source: normalizeMessageContent (part_000 lines 275 to 281).
Trim, lower-case, collapse whitespace, and keep the first 100
characters. -/
def normalizeMessageContent (content : List Char) : List Char :=
  (collapseWs false ((jsTrim content).map Char.toLower)).take 100

/-! ### A stable insertion sort on an integer key

The source sorts with the JavaScript array sort method and a numeric
comparator (a.timestamp - b.timestamp); that sort is guaranteed stable,
and a stable comparison sort is uniquely determined by the comparator,
so it is modelled by a stable insertion sort on the key. -/

/-- Insert x in front of the first element whose key is not smaller. -/
def insertLe {α : Type} (key : α → Int) (x : α) : List α → List α
  | [] => [x]
  | y :: ys => if key x ≤ key y then x :: y :: ys else y :: insertLe key x ys

/-- Stable insertion sort on an integer key, ascending. -/
def sortByKey {α : Type} (key : α → Int) : List α → List α
  | [] => []
  | x :: xs => insertLe key x (sortByKey key xs)

theorem mem_insertLe {α : Type} (key : α → Int) (x a : α) :
    ∀ l : List α, a ∈ insertLe key x l ↔ a = x ∨ a ∈ l := by
  intro l
  induction l with
  | nil => simp [insertLe]
  | cons y ys ih =>
    by_cases h : key x ≤ key y
    · simp [insertLe, h]
    · simp only [insertLe, if_neg h, List.mem_cons, ih]
      tauto

theorem mem_sortByKey {α : Type} (key : α → Int) (a : α) :
    ∀ l : List α, a ∈ sortByKey key l ↔ a ∈ l := by
  intro l
  induction l with
  | nil => simp [sortByKey]
  | cons y ys ih =>
    simp [sortByKey, mem_insertLe, ih]

theorem pairwise_insertLe {α : Type} (key : α → Int) (x : α) :
    ∀ l : List α, List.Pairwise (fun a b => key a ≤ key b) l →
      List.Pairwise (fun a b => key a ≤ key b) (insertLe key x l) := by
  intro l
  induction l with
  | nil => simp [insertLe]
  | cons y ys ih =>
    intro h
    rcases List.pairwise_cons.mp h with ⟨hy, hys⟩
    by_cases hxy : key x ≤ key y
    · rw [insertLe, if_pos hxy]
      refine List.pairwise_cons.mpr ⟨?_, h⟩
      intro b hb
      rcases List.mem_cons.mp hb with rfl | hb
      · exact hxy
      · exact le_trans hxy (hy b hb)
    · rw [insertLe, if_neg hxy]
      refine List.pairwise_cons.mpr ⟨?_, ih hys⟩
      intro b hb
      rcases (mem_insertLe key x b ys).mp hb with rfl | hb
      · omega
      · exact hy b hb

theorem pairwise_sortByKey {α : Type} (key : α → Int) :
    ∀ l : List α, List.Pairwise (fun a b => key a ≤ key b) (sortByKey key l) := by
  intro l
  induction l with
  | nil => simp [sortByKey]
  | cons y ys ih => exact pairwise_insertLe key y _ ih

theorem filter_insertLe {α : Type} (key : α → Int) (t : Int) (x : α) :
    ∀ l : List α,
      (insertLe key x l).filter (fun a => key a == t) =
        (if key x == t then
          x :: l.filter (fun a => key a == t)
        else l.filter (fun a => key a == t)) := by
  intro l
  induction l with
  | nil =>
    simp only [insertLe, List.filter_cons, List.filter_nil]
  | cons y ys ih =>
    by_cases hxy : key x ≤ key y
    · rw [insertLe, if_pos hxy]
      by_cases hx : key x = t
      · simp [List.filter_cons, hx]
      · simp [List.filter_cons, hx]
    · rw [insertLe, if_neg hxy]
      by_cases hx : key x = t
      · have hy : ¬ key y = t := by omega
        simp [List.filter_cons, hx, hy, ih]
      · by_cases hy : key y = t
        · simp [List.filter_cons, hx, hy, ih]
        · simp [List.filter_cons, hx, hy, ih]

theorem filter_sortByKey {α : Type} (key : α → Int) (t : Int) :
    ∀ l : List α,
      (sortByKey key l).filter (fun a => key a == t) =
        l.filter (fun a => key a == t) := by
  intro l
  induction l with
  | nil => simp [sortByKey]
  | cons y ys ih =>
    rw [sortByKey, filter_insertLe]
    by_cases hy : key y = t
    · simp [List.filter_cons, hy, ih]
    · simp [List.filter_cons, hy, ih]

/-! ### Data model (part_000 lines 22 to 119)

The TypeScript interfaces of the Evolution API service. The key object
of a message is modelled as always present (the source filters out
records with a missing key before use); a missing remoteJid is modelled
as the empty list, which JavaScript truthiness also rejects. -/

/-- Suffix marker of a standard one-to-one WhatsApp identifier. -/
def waSuffix : List Char := "@s.whatsapp.net".toList

/-- Suffix marker of a group chat identifier. -/
def gusSuffix : List Char := "@g.us".toList

/-- Marker of the opaque linked identifier form. -/
def lidSuffix : List Char := "@lid".toList

/-- Media kind tag of a transformed message. -/
inductive MediaType : Type
  | text | image | audio | document | video | sticker | other
deriving DecidableEq

/-- Direction of a message. -/
inductive Direction : Type
  | incoming | outgoing
deriving DecidableEq

/-- Image payload: caption and url fields, both optional. -/
structure ImageMsg where
  caption : Option (List Char) := none
  url : Option (List Char) := none
deriving DecidableEq

/-- Audio payload. -/
structure AudioMsg where
  url : Option (List Char) := none
deriving DecidableEq

/-- Document payload. -/
structure DocumentMsg where
  fileName : Option (List Char) := none
  url : Option (List Char) := none
deriving DecidableEq

/-- Sticker payload. -/
structure StickerMsg where
  url : Option (List Char) := none
deriving DecidableEq

/-- Video payload. -/
structure VideoMsg where
  caption : Option (List Char) := none
  url : Option (List Char) := none
deriving DecidableEq

/-- Location payload; the floating point coordinates are modelled as
optional integers (their rendering is opaque to every claim). -/
structure LocationMsg where
  degreesLatitude : Option Int := none
  degreesLongitude : Option Int := none
deriving DecidableEq

/-- Contact card payload. -/
structure ContactMsg where
  displayName : Option (List Char) := none
deriving DecidableEq

/-- Reaction payload. -/
structure ReactionMsg where
  text : Option (List Char) := none
deriving DecidableEq

/-- The tagged payload union of an Evolution message; the conversation
field holds plain text and extendedTextMessage holds the text field of
the extended text object. -/
structure EvoPayload where
  conversation : Option (List Char) := none
  extendedTextMessage : Option (List Char) := none
  imageMessage : Option ImageMsg := none
  audioMessage : Option AudioMsg := none
  documentMessage : Option DocumentMsg := none
  stickerMessage : Option StickerMsg := none
  videoMessage : Option VideoMsg := none
  locationMessage : Option LocationMsg := none
  contactMessage : Option ContactMsg := none
  reactionMessage : Option ReactionMsg := none
deriving DecidableEq

/-- Key object of an Evolution message. -/
structure MessageKey where
  id : List Char
  fromMe : Bool
  remoteJid : List Char
  remoteJidAlt : Option (List Char) := none
deriving DecidableEq

/-- Provider-native message record. The MessageUpdate array is modelled
as the list of its status strings. -/
structure EvolutionMessage where
  id : List Char
  key : MessageKey
  pushName : List Char
  message : Option EvoPayload := none
  messageTimestamp : Int
  messageUpdate : List (List Char) := []
deriving DecidableEq

/-- Transformed message used by the application (interface ChatMessage,
lines 97 to 110); created_at is epoch milliseconds in this model. -/
structure ChatMessage where
  id : List Char
  message_key_id : List Char
  whatsapp_number : List Char
  sender_name : List Char
  message_type : Direction
  message_content : List Char
  message_media_type : MediaType
  media_url : Option (List Char) := none
  timestamp : Int
  created_at : Int
  status : List Char
  is_from_bot : Bool
deriving DecidableEq

/-- Conversation summary (interface GroupedConversation, lines 112 to
119; the profile_pic field is never set by the engine and is omitted). -/
structure GroupedConversation where
  whatsapp_number : List Char
  contact_name : List Char
  messages : List ChatMessage
  last_message : ChatMessage
  unread_count : Nat
deriving DecidableEq

/-- Row of the n8n_chat_histories table: the nested message column. -/
structure N8NMessage where
  type : List Char
  content : List Char
deriving DecidableEq

/-- Row of the n8n_chat_histories table (lines 325 to 333). -/
structure N8NChatHistory where
  id : Int
  session_id : List Char
  message : Option N8NMessage := none
  created_at : Int
deriving DecidableEq

/-- Row of the conversation_logs table (lines 309 to 320). -/
structure ConversationLog where
  id : List Char
  whatsapp_number : List Char
  patient_id : Option (List Char) := none
  message_type : Direction
  message_content : List Char
  source_instance : List Char := []
  created_at : Int
  is_bot_question : Bool
  question_type : List Char := []
  resolved : Bool
deriving DecidableEq

/-! ### Contact identity resolution (lines 121 to 135) -/

/-- Source: extractPhoneNumber (lines 125 to 135). The altJid argument
is truthy when present and non-empty, exactly as JavaScript sees it. -/
def extractPhoneNumber (jid : List Char) (altJid : Option (List Char)) : List Char :=
  if containsSub lidSuffix jid ∧ truthyStr altJid then
    replaceFirst (replaceFirst (altJid.getD []) waSuffix) gusSuffix
  else if containsSub lidSuffix jid then
    replaceFirst jid lidSuffix
  else
    replaceFirst (replaceFirst jid waSuffix) gusSuffix

/-- Contact identity resolution as the pipeline applies it: the guards
of fetchGroupedConversations (lines 672 to 679) reject group
identifiers and opaque linked identifiers without an alternate, and
extractPhoneNumber resolves the rest. -/
def resolveContactKey (jid : List Char) (alt : Option (List Char)) : Option (List Char) :=
  if containsSub gusSuffix jid then none
  else if containsSub lidSuffix jid ∧ ¬ truthyStr alt then none
  else some (extractPhoneNumber jid alt)

/-! ### Message content extraction (lines 137 to 223) -/

/-- Localized default document name. -/
def docDefault : List Char := "مستند".toList

/-- Localized default contact card name. -/
def contactDefault : List Char := "جهة اتصال".toList

/-- Default reaction glyph. -/
def thumbsUp : List Char := "👍".toList

/-- Localized generic attachment placeholder. -/
def attachmentPlaceholder : List Char := "📎 مرفق".toList

/-- Renders an optional coordinate; an absent coordinate renders as the
JavaScript undefined does inside a template string. -/
def renderCoord : Option Int → List Char
  | none => "undefined".toList
  | some v => (toString v).toList

/-- Synthesized location string (line 195). -/
def locationContent (lat lng : Option Int) : List Char :=
  "📍 ".toList ++ renderCoord lat ++ ", ".toList ++ renderCoord lng

/-- Result triple of extractMessageContent. -/
structure ExtractResult where
  content : List Char
  mediaType : MediaType
  mediaUrl : Option (List Char) := none
deriving DecidableEq

/-- Source: extractMessageContent (lines 140 to 209). First match wins;
text fields are tested for truthiness, media objects for presence. -/
def extractMessageContent (message : Option EvoPayload) : ExtractResult :=
  match message with
  | none => { content := [], mediaType := MediaType.other, mediaUrl := none }
  | some m =>
    if truthyStr m.conversation then
      { content := m.conversation.getD [], mediaType := MediaType.text, mediaUrl := none }
    else if truthyStr m.extendedTextMessage then
      { content := m.extendedTextMessage.getD [], mediaType := MediaType.text, mediaUrl := none }
    else match m.imageMessage with
    | some im =>
      { content := jsOr im.caption [], mediaType := MediaType.image, mediaUrl := im.url }
    | none => match m.audioMessage with
    | some am => { content := [], mediaType := MediaType.audio, mediaUrl := am.url }
    | none => match m.documentMessage with
    | some dm =>
      { content := jsOr dm.fileName docDefault, mediaType := MediaType.document,
        mediaUrl := dm.url }
    | none => match m.videoMessage with
    | some vm =>
      { content := jsOr vm.caption [], mediaType := MediaType.video, mediaUrl := vm.url }
    | none => match m.stickerMessage with
    | some sm => { content := [], mediaType := MediaType.sticker, mediaUrl := sm.url }
    | none => match m.locationMessage with
    | some lm =>
      { content := locationContent lm.degreesLatitude lm.degreesLongitude,
        mediaType := MediaType.other, mediaUrl := none }
    | none => match m.contactMessage with
    | some cm =>
      { content := "👤 ".toList ++ jsOr cm.displayName contactDefault,
        mediaType := MediaType.other, mediaUrl := none }
    | none => match m.reactionMessage with
    | some rm =>
      { content := jsOr rm.text thumbsUp, mediaType := MediaType.other, mediaUrl := none }
    | none =>
      { content := attachmentPlaceholder, mediaType := MediaType.other, mediaUrl := none }

/-- Delivery status strings. -/
def sentStat : List Char := "sent".toList

/-- Status string for delivered messages. -/
def deliveredStat : List Char := "delivered".toList

/-- Status string for read messages. -/
def readStat : List Char := "read".toList

/-- Source: getMessageStatus (lines 214 to 223); the last update status
decides, defaulting to sent. -/
def getMessageStatus (updates : List (List Char)) : List Char :=
  match updates.getLast? with
  | none => sentStat
  | some u =>
    if u = "READ".toList then readStat
    else if u = "DELIVERY_ACK".toList then deliveredStat
    else sentStat

/-! ### Association list models of the JavaScript Map and Set

JavaScript Map and Set preserve insertion order; they are modelled as
association lists without duplicate keys, with position-preserving
update. -/

/-- Lookup in an insertion-ordered map. -/
def mapGet {ν : Type} : List (List Char × ν) → List Char → Option ν
  | [], _ => none
  | (k, v) :: rest, p => if k = p then some v else mapGet rest p

/-- Position-preserving set on an insertion-ordered map; a new key is
appended at the end, as the JavaScript Map set method does. -/
def mapPut {ν : Type} : List (List Char × ν) → List Char → ν → List (List Char × ν)
  | [], k, v => [(k, v)]
  | (k0, v0) :: rest, k, v =>
    if k0 = k then (k0, v) :: rest else (k0, v0) :: mapPut rest k v

/-- Models pushing onto the list stored at a key, creating the key with
a singleton list when absent (lines 700 to 703). -/
def mapAppendMsg : List (List Char × List ChatMessage) → List Char → ChatMessage →
    List (List Char × List ChatMessage)
  | [], p, m => [(p, [m])]
  | (k, msgs) :: rest, p, m =>
    if k = p then (k, msgs ++ [m]) :: rest else (k, msgs) :: mapAppendMsg rest p m

/-- Models adding to a JavaScript Set: appended only when absent. -/
def setAdd (s : List (List Char)) (x : List Char) : List (List Char) :=
  if x ∈ s then s else s ++ [x]

/-- Per-contact fingerprint map built from the generation log. -/
abbrev BotMap : Type := List (List Char × List (List Char))

/-- Models adding one normalized content into the per-session set of
the cache under construction (lines 255 to 258). -/
def botMapAdd : BotMap → List Char → List Char → BotMap
  | [], k, c => [(k, [c])]
  | (k0, s) :: rest, k, c =>
    if k0 = k then (k0, setAdd s c) :: rest else (k0, s) :: botMapAdd rest k c

/-- Type tags of n8n_chat_histories rows. -/
def aiType : List Char := "ai".toList

/-- Human row tag. -/
def humanType : List Char := "human".toList

/-- Tool row tag. -/
def toolType : List Char := "tool".toList

/-- Source: the cache construction loop of fetchBotMessages (lines 247
to 260): only ai rows with truthy content contribute, normalized. -/
def buildBotMessages (rows : List N8NChatHistory) : BotMap :=
  rows.foldl (fun cache row =>
    match row.message with
    | none => cache
    | some msg =>
      if msg.type = aiType ∧ msg.content ≠ [] then
        botMapAdd cache row.session_id (normalizeMessageContent msg.content)
      else cache) []

/-- Source: checkIfBotMessage (lines 286 to 304). The contact set is
scanned for a two-way prefix match against the normalized content. -/
def checkIfBotMessage (content : List Char) (sessionId : List Char)
    (botMessages : BotMap) : Bool :=
  let normalizedContent := normalizeMessageContent content
  match mapGet botMessages sessionId with
  | none => false
  | some sessionBotMessages =>
    sessionBotMessages.any (fun botContent =>
      normalizedContent.isPrefixOf botContent || botContent.isPrefixOf normalizedContent)

/-! ### Pattern-based bot detection (lines 478 to 518) -/

/-- The fixed list of known assistant greeting and confirmation
phrases (lines 492 to 503). -/
def botPatterns : List (List Char) :=
  [ "أهلاً", "مرحبا", "شكراً لتواصلك", "يسعدنا تذكيرك", "تم حجز موعدك",
    "تم تأكيد", "تم إلغاء", "للتأكيد رد بـ", "أنا موجودة لو عندك",
    "كيف أقدر أساعدك" ].map String.toList

/-- Source: isFromBotPattern (lines 482 to 506); outgoing only, testing
the lower-cased content for any known phrase. -/
def isFromBotPattern (msg : EvolutionMessage) : Bool :=
  if !msg.key.fromMe then false
  else
    let content := (extractMessageContent msg.message).content.map Char.toLower
    botPatterns.any (fun pat => containsSub pat content)

/-- Source: isFromBot (lines 512 to 518); incoming is never from the
bot, otherwise the pattern detection is the default (overridden later
inside fetchGroupedConversations). -/
def isFromBot (msg : EvolutionMessage) : Bool :=
  if !msg.key.fromMe then false else isFromBotPattern msg

/-! ### Transformation of a provider message (lines 520 to 550) -/

/-- Fallback sender name. -/
def unknownName : List Char := "Unknown".toList

/-- Display name of the assistant in log-derived messages. -/
def aiAssistantName : List Char := "AI Assistant".toList

/-- Source: transformMessage (lines 523 to 550). The now argument
models the clock read used for the missing-timestamp and missing-id
fallbacks; created_at is the timestamp itself in this model. -/
def transformMessage (now : Int) (msg : EvolutionMessage) : ChatMessage :=
  let r := extractMessageContent msg.message
  let timestamp := (if msg.messageTimestamp ≠ 0 then msg.messageTimestamp else now) * 1000
  let phoneNumber := extractPhoneNumber msg.key.remoteJid msg.key.remoteJidAlt
  { id := if msg.id ≠ [] then msg.id else "msg-".toList ++ (toString now).toList
    message_key_id := msg.key.id
    whatsapp_number := phoneNumber
    sender_name :=
      if msg.pushName ≠ [] then msg.pushName
      else if phoneNumber ≠ [] then phoneNumber else unknownName
    message_type := if msg.key.fromMe then Direction.outgoing else Direction.incoming
    message_content := r.content
    message_media_type := r.mediaType
    media_url := r.mediaUrl
    timestamp := timestamp
    created_at := timestamp
    status := getMessageStatus msg.messageUpdate
    is_from_bot := isFromBot msg }

/-! ### Supabase-derived messages (lines 306 to 476) -/

/-- Metadata marker inside human rows. -/
def userMarker : List Char := "User Message:".toList

/-- Separator marker inside human rows. -/
def sepMarker : List Char := "\n---".toList

/-- Marker of tool call rows. -/
def callingMarker : List Char := "Calling ".toList

/-- Opening brace character, written by code point to keep it out of
string literals. -/
def braceChar : Char := Char.ofNat 123

/-- Source: the metadata extraction for human rows (lines 402 to 411):
the slice between the user marker and the separator, trimmed. -/
def extractUserMessage (content : List Char) : List Char :=
  let startIndex := (firstIndexOf content userMarker).getD 0 + userMarker.length
  match firstIndexOf content sepMarker with
  | some endIndex =>
    if startIndex < endIndex then jsTrim ((content.take endIndex).drop startIndex)
    else jsTrim (content.drop startIndex)
  | none => jsTrim (content.drop startIndex)

/-- Source: the n8n_chat_histories row mapping of fetchSupabaseMessages
(lines 395 to 432); rows without truthy content, tool rows, tool call
texts and brace-led texts yield nothing. -/
def n8nRowToMsg (phoneNumber : List Char) (row : N8NChatHistory) : Option ChatMessage :=
  match row.message with
  | none => none
  | some msg =>
    if msg.content ≠ [] ∧ msg.type ≠ toolType then
      let isAI : Bool := msg.type == aiType
      let isHuman : Bool := msg.type == humanType
      let content :=
        if isHuman && containsSub userMarker msg.content then extractUserMessage msg.content
        else msg.content
      if content = [] ∨ containsSub callingMarker content = true ∨
          content.head? = some braceChar then
        none
      else
        some { id := "n8n-".toList ++ (toString row.id).toList
               message_key_id := "n8n-".toList ++ (toString row.id).toList
               whatsapp_number := phoneNumber
               sender_name := if isHuman then phoneNumber else aiAssistantName
               message_type := if isAI then Direction.outgoing else Direction.incoming
               message_content := content
               message_media_type := MediaType.text
               media_url := none
               timestamp := row.created_at
               created_at := row.created_at
               status := readStat
               is_from_bot := isAI }
    else none

/-- Source: the conversation_logs row mapping (lines 451 to 463). -/
def convRowToMsg (phoneNumber : List Char) (row : ConversationLog) : ChatMessage :=
  { id := "conv-".toList ++ row.id
    message_key_id := "conv-".toList ++ row.id
    whatsapp_number := phoneNumber
    sender_name :=
      if row.message_type = Direction.incoming then phoneNumber else aiAssistantName
    message_type := row.message_type
    message_content := row.message_content
    message_media_type := MediaType.text
    media_url := none
    timestamp := row.created_at
    created_at := row.created_at
    status := if row.resolved then readStat else deliveredStat
    is_from_bot := row.is_bot_question }

/-- The duplicate test shared by the two merge loops: equal normalized
fingerprints and timestamps strictly within one minute (lines 445 to
448 compare the parsed created_at values, lines 741 to 744 compare the
timestamp fields; both are epoch milliseconds in this model). -/
def isDupAt (tA tB : Int) (cA cB : List Char) : Bool :=
  (normalizeMessageContent cA == normalizeMessageContent cB) &&
  decide ((tA - tB).natAbs < 60000)

/-- Source: the conversation_logs merge loop of fetchSupabaseMessages
(lines 442 to 466): each row is appended unless a message already
accumulated is a duplicate of it, or its content is empty. -/
def convLogsFold (phoneNumber : List Char) (start : List ChatMessage)
    (rows : List ConversationLog) : List ChatMessage :=
  rows.foldl (fun messages row =>
    if !(messages.any (fun m =>
          isDupAt m.created_at row.created_at m.message_content row.message_content)) ∧
        row.message_content ≠ [] then
      messages ++ [convRowToMsg phoneNumber row]
    else messages) start

/-- The pre-sort message assembly of fetchSupabaseMessages (lines 383
to 466): the n8n-derived messages in table order followed by the
non-duplicate conversation_logs rows in table order, before the final
sort of line 469. Each query is an explicit result, an error making
that source contribute nothing, exactly as the error checks do; the
database ordering by created_at is the stable ascending sort. -/
def supabaseUnsorted (phoneNumber : List Char)
    (chatResp : Except Unit (List N8NChatHistory))
    (convResp : Except Unit (List ConversationLog)) : List ChatMessage :=
  let base :=
    match chatResp with
    | Except.error _ => []
    | Except.ok rows =>
      ((sortByKey (fun r => r.created_at)
          (rows.filter (fun r => r.session_id == phoneNumber))).filterMap
        (n8nRowToMsg phoneNumber))
  match convResp with
  | Except.error _ => base
  | Except.ok rows =>
    convLogsFold phoneNumber base
      (sortByKey (fun r => r.created_at)
        (rows.filter (fun r => r.whatsapp_number == phoneNumber)))

/-- Source: fetchSupabaseMessages (lines 383 to 476): the assembled
messages, sorted ascending by timestamp (line 469). -/
def fetchSupabaseMessagesModel (phoneNumber : List Char)
    (chatResp : Except Unit (List N8NChatHistory))
    (convResp : Except Unit (List ConversationLog)) : List ChatMessage :=
  sortByKey (fun m => m.timestamp) (supabaseUnsorted phoneNumber chatResp convResp)

/-- Source: the cross-source merge loop of fetchGroupedConversations
(lines 739 to 749): each Supabase message is appended to the provider
list unless some message already accumulated is a duplicate of it. -/
def mergeSupabaseMessages (existing sb : List ChatMessage) : List ChatMessage :=
  sb.foldl (fun acc sbMsg =>
    if !(acc.any (fun m =>
          isDupAt m.timestamp sbMsg.timestamp m.message_content sbMsg.message_content)) then
      acc ++ [sbMsg]
    else acc) existing

/-! ### Entry points (lines 555 to 789 and 816 to 855)

Each fallible network or database interaction is an explicit Except
input; the catch branch of each source function is the error case of
the match, so a failed source contributes exactly its documented
default. The response envelope probing of fetchMessages (records key
or bare array) is abstracted as the already extracted record list. -/

/-- Result shape of fetchMessages. -/
structure FetchMessagesResult where
  messages : List EvolutionMessage
  total : Int
  pages : Int
deriving DecidableEq

/-- Source: fetchMessages (lines 579 to 641). Invalid records, those
whose key has a falsy remoteJid, are filtered out; on failure the empty
result is returned. -/
def fetchMessagesModel (resp : Except Unit (List EvolutionMessage × Int × Int)) :
    FetchMessagesResult :=
  match resp with
  | Except.error _ => { messages := [], total := 0, pages := 0 }
  | Except.ok (msgs, total, pages) =>
    { messages := msgs.filter (fun m => decide (m.key.remoteJid ≠ []))
      total := total
      pages := pages }

/-- Source: fetchBotMessages (lines 229 to 270). The fresh flag models
the time-based cache staleness test; on a fresh non-empty cache or on
query failure the previous cache is returned. -/
def fetchBotMessagesModel (fresh : Bool) (cache : BotMap)
    (resp : Except Unit (List N8NChatHistory)) : BotMap :=
  if fresh ∧ cache ≠ [] then cache
  else
    match resp with
    | Except.error _ => cache
    | Except.ok rows => buildBotMessages rows

/-- Source: fetchAllConversationNumbers (lines 339 to 377). Each of the
two queries contributes its truthy identifiers to the set; a failed
query contributes nothing. -/
def fetchAllConversationNumbersModel
    (chatResp : Except Unit (List (List Char)))
    (convResp : Except Unit (List (List Char))) : List (List Char) :=
  let s :=
    match chatResp with
    | Except.error _ => []
    | Except.ok ids => ids.foldl (fun acc i => if i ≠ [] then setAdd acc i else acc) []
  match convResp with
  | Except.error _ => s
  | Except.ok nums => nums.foldl (fun acc n => if n ≠ [] then setAdd acc n else acc) s

/-- Source: fetchMediaBase64 (lines 819 to 855). A non-ok response or a
thrown error yields null; otherwise absent fields get their defaults. -/
def fetchMediaBase64Model
    (resp : Except Unit (Option (Option (List Char) × Option (List Char)))) :
    Option (List Char × List Char) :=
  match resp with
  | Except.error _ => none
  | Except.ok none => none
  | Except.ok (some (b64, mime)) =>
    some (b64.getD [], mime.getD ("application/octet-stream".toList))

/-! ### The grouped conversation pipeline (lines 643 to 789) -/

/-- Accumulator of the provider message loop (lines 661 to 663). -/
structure PipelineState where
  messagesMap : List (List Char × List ChatMessage)
  contactNames : List (List Char × List Char)
  processedPhones : List (List Char)
deriving DecidableEq

/-- The unconditional attribution override for outgoing messages
(lines 690 to 698): outgoing messages get their is_from_bot flag from
checkIfBotMessage, incoming messages are untouched. -/
def classifyOutgoing (botMessages : BotMap) (t : ChatMessage) : ChatMessage :=
  if t.message_type = Direction.outgoing then
    { t with is_from_bot := checkIfBotMessage t.message_content t.whatsapp_number botMessages }
  else t

/-- Source: the per-message body of the provider loop (lines 665 to
709): skip invalid, group, unresolvable-linked and content-free
messages; transform, classify outgoing, store, and record the contact
name of incoming messages with a truthy push name. -/
def processProviderMessage (now : Int) (botMessages : BotMap)
    (st : PipelineState) (msg : EvolutionMessage) : PipelineState :=
  if msg.key.remoteJid = [] then st
  else if containsSub gusSuffix msg.key.remoteJid then st
  else if containsSub lidSuffix msg.key.remoteJid ∧ ¬ truthyStr msg.key.remoteJidAlt then st
  else
    let transformed := transformMessage now msg
    if transformed.message_content = [] ∧ transformed.message_media_type = MediaType.other then
      st
    else
      let phone := transformed.whatsapp_number
      let classified := classifyOutgoing botMessages transformed
      { messagesMap := mapAppendMsg st.messagesMap phone classified
        contactNames :=
          if ¬ msg.key.fromMe ∧ msg.pushName ≠ [] then
            mapPut st.contactNames phone msg.pushName
          else st.contactNames
        processedPhones := setAdd st.processedPhones phone }

/-- The provider message loop (lines 665 to 709). -/
def pipelineState (now : Int) (botMessages : BotMap)
    (raw : List EvolutionMessage) : PipelineState :=
  raw.foldl (processProviderMessage now botMessages)
    { messagesMap := [], contactNames := [], processedPhones := [] }

/-- The backfill of conversations present only in Supabase (lines 711
to 731); the batching is invisible in a sequential model. Only
non-empty message lists are stored. -/
def pipelineMissingFill
    (chatTab : Except Unit (List N8NChatHistory))
    (convTab : Except Unit (List ConversationLog))
    (st : PipelineState) (allNums : List (List Char)) :
    List (List Char × List ChatMessage) :=
  (allNums.filter (fun p => decide (p ∉ st.processedPhones))).foldl
    (fun mm phone =>
      let msgs := fetchSupabaseMessagesModel phone chatTab convTab
      if msgs.isEmpty then mm else mapPut mm phone msgs)
    st.messagesMap

/-- The cross-source merge over the contacts seen in the provider
window (lines 733 to 754): merge the Supabase history into the
existing list, then re-sort by timestamp. -/
def pipelineMerged
    (chatTab : Except Unit (List N8NChatHistory))
    (convTab : Except Unit (List ConversationLog))
    (st : PipelineState) (map1 : List (List Char × List ChatMessage)) :
    List (List Char × List ChatMessage) :=
  st.processedPhones.foldl
    (fun mm phone =>
      let sb := fetchSupabaseMessagesModel phone chatTab convTab
      let merged := sortByKey (fun m => m.timestamp)
        (mergeSupabaseMessages ((mapGet mm phone).getD []) sb)
      mapPut mm phone merged)
    map1

/-- Number of incoming not-read messages (lines 766 to 768). -/
def countUnread (messages : List ChatMessage) : Nat :=
  (messages.filter (fun m =>
    decide (m.message_type = Direction.incoming ∧ m.status ≠ readStat))).length

/-- The aggregation of one map entry into a conversation summary
(lines 759 to 777): empty lists are skipped, messages are sorted by
timestamp, the last message and the unread count are computed, and the
display name falls back to the phone number. -/
def mkConv (contactNames : List (List Char × List Char)) (phone : List Char)
    (messages : List ChatMessage) : Option GroupedConversation :=
  if messages.isEmpty then none
  else
    let sorted := sortByKey (fun m => m.timestamp) messages
    match sorted.getLast? with
    | none => none
    | some last =>
      some { whatsapp_number := phone
             contact_name := (mapGet contactNames phone).getD phone
             messages := sorted
             last_message := last
             unread_count := countUnread sorted }

/-- The aggregation loop over the message map (lines 756 to 777). -/
def buildGrouped (contactNames : List (List Char × List Char))
    (entries : List (List Char × List ChatMessage)) : List GroupedConversation :=
  entries.filterMap (fun e => mkConv contactNames e.1 e.2)

/-- Source: fetchGroupedConversations (lines 648 to 789). The three
source fetches, the provider loop, the Supabase backfill, the
cross-source merge, the aggregation, and the final descending sort by
the last message timestamp (line 780, a stable sort on the negated
key). -/
def fetchGroupedConversationsModel (now : Int) (fresh : Bool) (cache : BotMap)
    (providerResp : Except Unit (List EvolutionMessage × Int × Int))
    (botResp : Except Unit (List N8NChatHistory))
    (chatNumsResp : Except Unit (List (List Char)))
    (convNumsResp : Except Unit (List (List Char)))
    (chatTab : Except Unit (List N8NChatHistory))
    (convTab : Except Unit (List ConversationLog)) : List GroupedConversation :=
  let raw := (fetchMessagesModel providerResp).messages
  let botMessages := fetchBotMessagesModel fresh cache botResp
  let allNums := fetchAllConversationNumbersModel chatNumsResp convNumsResp
  let st := pipelineState now botMessages raw
  let map2 := pipelineMerged chatTab convTab st (pipelineMissingFill chatTab convTab st allNums)
  sortByKey (fun g => -(g.last_message.timestamp)) (buildGrouped st.contactNames map2)

/-! ### Supporting lemmas -/

theorem foldl_inv {σ ρ : Type} (f : σ → ρ → σ) (Inv : σ → Prop)
    (step : ∀ s r, Inv s → Inv (f s r)) :
    ∀ (l : List ρ) (s : σ), Inv s → Inv (l.foldl f s) := by
  intro l
  induction l with
  | nil => intro s h; exact h
  | cons r rs ih => intro s h; exact ih _ (step s r h)

theorem mergeSupabaseMessages_eq_append :
    ∀ (sb existing : List ChatMessage), ∃ rest : List ChatMessage,
      rest.Sublist sb ∧ mergeSupabaseMessages existing sb = existing ++ rest := by
  intro sb
  induction sb with
  | nil =>
    intro ex
    exact ⟨[], List.Sublist.refl _, by simp [mergeSupabaseMessages]⟩
  | cons s rest ih =>
    intro ex
    by_cases hc : (!(ex.any (fun m =>
        isDupAt m.timestamp s.timestamp m.message_content s.message_content))) = true
    · obtain ⟨r, hsub, heq⟩ := ih (ex ++ [s])
      refine ⟨s :: r, hsub.cons₂ s, ?_⟩
      have hstep : mergeSupabaseMessages ex (s :: rest) =
          mergeSupabaseMessages (ex ++ [s]) rest := by
        unfold mergeSupabaseMessages
        rw [List.foldl_cons, if_pos hc]
      rw [hstep, heq, List.append_assoc]
      rfl
    · obtain ⟨r, hsub, heq⟩ := ih ex
      refine ⟨r, hsub.cons s, ?_⟩
      have hstep : mergeSupabaseMessages ex (s :: rest) = mergeSupabaseMessages ex rest := by
        unfold mergeSupabaseMessages
        rw [List.foldl_cons, if_neg hc]
      rw [hstep, heq]

theorem convLogsFold_eq_append (p : List Char) :
    ∀ (rows : List ConversationLog) (start : List ChatMessage),
      ∃ rest : List ChatMessage,
        rest.Sublist (rows.map (convRowToMsg p)) ∧
        convLogsFold p start rows = start ++ rest := by
  intro rows
  induction rows with
  | nil =>
    intro start
    exact ⟨[], List.Sublist.refl _, by simp [convLogsFold]⟩
  | cons row rest ih =>
    intro start
    by_cases hd : (!(start.any (fun m =>
        isDupAt m.created_at row.created_at m.message_content row.message_content))) = true ∧
        row.message_content ≠ []
    · obtain ⟨r, hsub, heq⟩ := ih (start ++ [convRowToMsg p row])
      refine ⟨convRowToMsg p row :: r, hsub.cons₂ _, ?_⟩
      have hstep : convLogsFold p start (row :: rest) =
          convLogsFold p (start ++ [convRowToMsg p row]) rest := by
        unfold convLogsFold
        rw [List.foldl_cons, if_pos hd]
      rw [hstep, heq, List.append_assoc]
      rfl
    · obtain ⟨r, hsub, heq⟩ := ih start
      refine ⟨r, hsub.cons _, ?_⟩
      have hstep : convLogsFold p start (row :: rest) = convLogsFold p start rest := by
        unfold convLogsFold
        rw [List.foldl_cons, if_neg hd]
      rw [hstep, heq]

theorem mem_mergeSupabaseMessages {m : ChatMessage} {ex sb : List ChatMessage}
    (h : m ∈ mergeSupabaseMessages ex sb) : m ∈ ex ∨ m ∈ sb := by
  obtain ⟨rest, hsub, heq⟩ := mergeSupabaseMessages_eq_append sb ex
  rw [heq] at h
  rcases List.mem_append.mp h with h | h
  · exact Or.inl h
  · exact Or.inr (hsub.subset h)

theorem mem_convLogsFold {m : ChatMessage} {p : List Char}
    {start : List ChatMessage} {rows : List ConversationLog}
    (h : m ∈ convLogsFold p start rows) :
    m ∈ start ∨ ∃ row ∈ rows, m = convRowToMsg p row := by
  obtain ⟨rest, hsub, heq⟩ := convLogsFold_eq_append p rows start
  rw [heq] at h
  rcases List.mem_append.mp h with h | h
  · exact Or.inl h
  · rcases List.mem_map.mp (hsub.subset h) with ⟨row, hrow, heq2⟩
    exact Or.inr ⟨row, hrow, heq2.symm⟩

/-- Invariant transport: every message in every entry of an
insertion-ordered message map satisfies P. -/
def MapAll (P : ChatMessage → Prop) (mm : List (List Char × List ChatMessage)) : Prop :=
  ∀ e ∈ mm, ∀ m ∈ e.2, P m

theorem mapAll_tail {P : ChatMessage → Prop} {e0 : List Char × List ChatMessage}
    {mm : List (List Char × List ChatMessage)}
    (h : MapAll P (e0 :: mm)) : MapAll P mm :=
  fun e he => h e (List.mem_cons_of_mem e0 he)

theorem mapAll_mapAppendMsg {P : ChatMessage → Prop} {p : List Char} {x : ChatMessage} :
    ∀ {mm : List (List Char × List ChatMessage)},
      MapAll P mm → P x → MapAll P (mapAppendMsg mm p x) := by
  intro mm
  induction mm with
  | nil =>
    intro _ hx e he m hm
    simp only [mapAppendMsg, List.mem_singleton] at he
    subst he
    simp only [List.mem_singleton] at hm
    subst hm
    exact hx
  | cons e0 rest ih =>
    intro h hx e he m hm
    obtain ⟨k, msgs⟩ := e0
    by_cases hk : k = p
    · simp only [mapAppendMsg, if_pos hk, List.mem_cons] at he
      rcases he with rfl | he
      · simp only [List.mem_append, List.mem_singleton] at hm
        rcases hm with hm | rfl
        · exact h (k, msgs) (List.mem_cons_self _ _) m hm
        · exact hx
      · exact h e (List.mem_cons_of_mem _ he) m hm
    · simp only [mapAppendMsg, if_neg hk, List.mem_cons] at he
      rcases he with rfl | he
      · exact h (k, msgs) (List.mem_cons_self _ _) m hm
      · exact ih (mapAll_tail h) hx e he m hm

theorem mapAll_mapPut {P : ChatMessage → Prop} {p : List Char} {msgs : List ChatMessage} :
    ∀ {mm : List (List Char × List ChatMessage)},
      MapAll P mm → (∀ m ∈ msgs, P m) → MapAll P (mapPut mm p msgs) := by
  intro mm
  induction mm with
  | nil =>
    intro _ hv e he m hm
    simp only [mapPut, List.mem_singleton] at he
    subst he
    exact hv m hm
  | cons e0 rest ih =>
    intro h hv e he m hm
    obtain ⟨k, v⟩ := e0
    by_cases hk : k = p
    · simp only [mapPut, if_pos hk, List.mem_cons] at he
      rcases he with rfl | he
      · exact hv m hm
      · exact h e (List.mem_cons_of_mem _ he) m hm
    · simp only [mapPut, if_neg hk, List.mem_cons] at he
      rcases he with rfl | he
      · exact h (k, v) (List.mem_cons_self _ _) m hm
      · exact ih (mapAll_tail h) hv e he m hm

theorem mapAll_get {P : ChatMessage → Prop} {p : List Char} {msgs : List ChatMessage} :
    ∀ {mm : List (List Char × List ChatMessage)},
      MapAll P mm → mapGet mm p = some msgs → ∀ m ∈ msgs, P m := by
  intro mm
  induction mm with
  | nil => intro _ hg; simp [mapGet] at hg
  | cons e0 rest ih =>
    intro h hg
    obtain ⟨k, v⟩ := e0
    by_cases hk : k = p
    · rw [mapGet, if_pos hk] at hg
      injection hg with hg
      intro m hm
      apply h (k, v) (List.mem_cons_self _ _) m
      rw [hg]
      exact hm
    · rw [mapGet, if_neg hk] at hg
      exact ih (mapAll_tail h) hg

/-- Decomposition of a conversation produced by the aggregation step. -/
theorem mkConv_some {names : List (List Char × List Char)} {phone : List Char}
    {messages : List ChatMessage} {conv : GroupedConversation}
    (h : mkConv names phone messages = some conv) :
    conv.messages = sortByKey (fun m => m.timestamp) messages ∧
    conv.messages.getLast? = some conv.last_message ∧
    conv.unread_count = countUnread conv.messages ∧
    conv.whatsapp_number = phone := by
  unfold mkConv at h
  split at h
  · cases h
  · dsimp only at h
    split at h
    · cases h
    · next last hlast =>
      injection h with h
      subst h
      exact ⟨rfl, hlast, rfl, rfl⟩

/-- Every conversation in the model output comes from one entry of the
merged map through the aggregation step. -/
theorem mem_model {conv : GroupedConversation} {now : Int} {fresh : Bool} {cache : BotMap}
    {provResp : Except Unit (List EvolutionMessage × Int × Int)}
    {botResp : Except Unit (List N8NChatHistory)}
    {chatNums convNums : Except Unit (List (List Char))}
    {chatTab : Except Unit (List N8NChatHistory)}
    {convTab : Except Unit (List ConversationLog)}
    (h : conv ∈ fetchGroupedConversationsModel now fresh cache provResp botResp
      chatNums convNums chatTab convTab) :
    ∃ phone msgs,
      (phone, msgs) ∈ pipelineMerged chatTab convTab
        (pipelineState now (fetchBotMessagesModel fresh cache botResp)
          (fetchMessagesModel provResp).messages)
        (pipelineMissingFill chatTab convTab
          (pipelineState now (fetchBotMessagesModel fresh cache botResp)
            (fetchMessagesModel provResp).messages)
          (fetchAllConversationNumbersModel chatNums convNums)) ∧
      mkConv (pipelineState now (fetchBotMessagesModel fresh cache botResp)
        (fetchMessagesModel provResp).messages).contactNames phone msgs = some conv := by
  unfold fetchGroupedConversationsModel at h
  rw [mem_sortByKey] at h
  unfold buildGrouped at h
  rcases List.mem_filterMap.mp h with ⟨e, he, hsome⟩
  exact ⟨e.1, e.2, he, hsome⟩

/-! ### The sort fixes sorted lists, and map bookkeeping

These lemmas let the merged map entries be traced back to the
pre-sort per-contact input lists. -/

theorem sortByKey_of_pairwise {α : Type} (key : α → Int) :
    ∀ l : List α, List.Pairwise (fun a b => key a ≤ key b) l → sortByKey key l = l := by
  intro l
  induction l with
  | nil => intro _; rfl
  | cons x xs ih =>
    intro h
    rcases List.pairwise_cons.mp h with ⟨hx, hxs⟩
    rw [sortByKey, ih hxs]
    cases xs with
    | nil => rfl
    | cons y ys =>
      rw [insertLe, if_pos (hx y (List.mem_cons_self _ _))]

theorem sortByKey_idem {α : Type} (key : α → Int) (l : List α) :
    sortByKey key (sortByKey key l) = sortByKey key l :=
  sortByKey_of_pairwise key _ (pairwise_sortByKey key l)

theorem mapGet_mapPut_self {ν : Type} (p : List Char) (v : ν) :
    ∀ mm : List (List Char × ν), mapGet (mapPut mm p v) p = some v := by
  intro mm
  induction mm with
  | nil => simp [mapPut, mapGet]
  | cons e rest ih =>
    obtain ⟨k, w⟩ := e
    by_cases hk : k = p
    · rw [mapPut, if_pos hk, mapGet, if_pos hk]
    · rw [mapPut, if_neg hk, mapGet, if_neg hk]
      exact ih

theorem mapGet_mapPut_ne {ν : Type} {p q : List Char} (v : ν) (hne : q ≠ p) :
    ∀ mm : List (List Char × ν), mapGet (mapPut mm p v) q = mapGet mm q := by
  intro mm
  induction mm with
  | nil =>
    have hpq : ¬ p = q := fun h => hne h.symm
    simp [mapPut, mapGet, hpq]
  | cons e rest ih =>
    obtain ⟨k, w⟩ := e
    by_cases hk : k = p
    · rw [mapPut, if_pos hk]
      have hkq : ¬ k = q := by
        rw [hk]
        exact fun h => hne h.symm
      rw [mapGet, if_neg hkq, mapGet, if_neg hkq]
    · rw [mapPut, if_neg hk]
      by_cases hq : k = q
      · rw [mapGet, if_pos hq, mapGet, if_pos hq]
      · rw [mapGet, if_neg hq, mapGet, if_neg hq]
        exact ih

theorem mapGet_mem_keys {ν : Type} {p : List Char} {v : ν} :
    ∀ {mm : List (List Char × ν)}, mapGet mm p = some v → p ∈ mm.map Prod.fst := by
  intro mm
  induction mm with
  | nil => intro h; exact Option.noConfusion h
  | cons e rest ih =>
    intro h
    obtain ⟨k, w⟩ := e
    by_cases hk : k = p
    · subst hk
      exact List.mem_cons_self _ _
    · rw [mapGet, if_neg hk] at h
      simp only [List.map_cons, List.mem_cons]
      exact Or.inr (ih h)

theorem mem_keys_mapPut {ν : Type} {q p : List Char} {v : ν} :
    ∀ mm : List (List Char × ν),
      q ∈ (mapPut mm p v).map Prod.fst ↔ q = p ∨ q ∈ mm.map Prod.fst := by
  intro mm
  induction mm with
  | nil => simp [mapPut]
  | cons e rest ih =>
    obtain ⟨k, w⟩ := e
    by_cases hk : k = p
    · subst hk
      rw [mapPut, if_pos rfl]
      simp only [List.map_cons, List.mem_cons]
      tauto
    · rw [mapPut, if_neg hk]
      simp only [List.map_cons, List.mem_cons, ih]
      tauto

theorem nodup_keys_mapPut {ν : Type} {p : List Char} {v : ν} :
    ∀ mm : List (List Char × ν),
      (mm.map Prod.fst).Nodup → ((mapPut mm p v).map Prod.fst).Nodup := by
  intro mm
  induction mm with
  | nil => intro _; simp [mapPut]
  | cons e rest ih =>
    obtain ⟨k, w⟩ := e
    intro h
    simp only [List.map_cons, List.nodup_cons] at h
    rcases h with ⟨hk, hrest⟩
    by_cases hkp : k = p
    · subst hkp
      rw [mapPut, if_pos rfl]
      simp only [List.map_cons, List.nodup_cons]
      exact ⟨hk, hrest⟩
    · rw [mapPut, if_neg hkp]
      simp only [List.map_cons, List.nodup_cons]
      refine ⟨?_, ih hrest⟩
      intro hmem
      rcases (mem_keys_mapPut rest).mp hmem with rfl | hmem2
      · exact hkp rfl
      · exact hk hmem2

theorem mem_keys_mapAppendMsg {q p : List Char} {m : ChatMessage} :
    ∀ mm : List (List Char × List ChatMessage),
      q ∈ (mapAppendMsg mm p m).map Prod.fst ↔ q = p ∨ q ∈ mm.map Prod.fst := by
  intro mm
  induction mm with
  | nil => simp [mapAppendMsg]
  | cons e rest ih =>
    obtain ⟨k, w⟩ := e
    by_cases hk : k = p
    · subst hk
      rw [mapAppendMsg, if_pos rfl]
      simp only [List.map_cons, List.mem_cons]
      tauto
    · rw [mapAppendMsg, if_neg hk]
      simp only [List.map_cons, List.mem_cons, ih]
      tauto

theorem nodup_keys_mapAppendMsg {p : List Char} {m : ChatMessage} :
    ∀ mm : List (List Char × List ChatMessage),
      (mm.map Prod.fst).Nodup → ((mapAppendMsg mm p m).map Prod.fst).Nodup := by
  intro mm
  induction mm with
  | nil => intro _; simp [mapAppendMsg]
  | cons e rest ih =>
    obtain ⟨k, w⟩ := e
    intro h
    simp only [List.map_cons, List.nodup_cons] at h
    rcases h with ⟨hk, hrest⟩
    by_cases hkp : k = p
    · subst hkp
      rw [mapAppendMsg, if_pos rfl]
      simp only [List.map_cons, List.nodup_cons]
      exact ⟨hk, hrest⟩
    · rw [mapAppendMsg, if_neg hkp]
      simp only [List.map_cons, List.nodup_cons]
      refine ⟨?_, ih hrest⟩
      intro hmem
      rcases (mem_keys_mapAppendMsg rest).mp hmem with rfl | hmem2
      · exact hkp rfl
      · exact hk hmem2

theorem mem_setAdd {x y : List Char} {s : List (List Char)} :
    x ∈ setAdd s y ↔ x = y ∨ x ∈ s := by
  unfold setAdd
  split
  · next hy =>
    constructor
    · exact fun h => Or.inr h
    · intro h
      rcases h with rfl | h
      · exact hy
      · exact h
  · simp only [List.mem_append, List.mem_singleton]
    tauto

theorem nodup_setAdd {s : List (List Char)} {y : List Char} (h : s.Nodup) :
    (setAdd s y).Nodup := by
  unfold setAdd
  split
  · exact h
  · next hy =>
    rw [List.nodup_append]
    refine ⟨h, List.nodup_singleton y, ?_⟩
    intro a ha hb
    simp only [List.mem_singleton] at hb
    subst hb
    exact hy ha

theorem mapGet_of_mem_nodup {ν : Type} {p : List Char} {v : ν} :
    ∀ {mm : List (List Char × ν)},
      (mm.map Prod.fst).Nodup → (p, v) ∈ mm → mapGet mm p = some v := by
  intro mm
  induction mm with
  | nil => intro _ h; simp at h
  | cons e rest ih =>
    intro h hm
    obtain ⟨k, w⟩ := e
    simp only [List.map_cons, List.nodup_cons] at h
    rcases h with ⟨hk, hrest⟩
    rcases List.mem_cons.mp hm with he | hm2
    · have h1 : p = k := congrArg Prod.fst he
      have h2 : v = w := congrArg Prod.snd he
      subst h1
      subst h2
      rw [mapGet, if_pos rfl]
    · have hpk : ¬ k = p := by
        intro hkp
        subst hkp
        exact hk (List.mem_map.mpr ⟨(k, v), hm2, rfl⟩)
      rw [mapGet, if_neg hpk]
      exact ih hrest hm2

/-- Bookkeeping invariant of the provider loop state: the message map
has no duplicate keys, the processed set has no duplicates, and every
map key has been recorded as processed. -/
def StateInv (st : PipelineState) : Prop :=
  (st.messagesMap.map Prod.fst).Nodup ∧ st.processedPhones.Nodup ∧
  ∀ p, p ∈ st.messagesMap.map Prod.fst → p ∈ st.processedPhones

theorem processProviderMessage_stateInv (now : Int) (bm : BotMap)
    (st : PipelineState) (msg : EvolutionMessage) (h : StateInv st) :
    StateInv (processProviderMessage now bm st msg) := by
  unfold processProviderMessage
  split
  · exact h
  split
  · exact h
  split
  · exact h
  dsimp only
  split
  · exact h
  obtain ⟨h1, h2, h3⟩ := h
  refine ⟨nodup_keys_mapAppendMsg _ h1, nodup_setAdd h2, ?_⟩
  intro q hq
  rcases (mem_keys_mapAppendMsg _).mp hq with rfl | hq2
  · exact mem_setAdd.mpr (Or.inl rfl)
  · exact mem_setAdd.mpr (Or.inr (h3 q hq2))

theorem pipelineState_inv (now : Int) (bm : BotMap) (raw : List EvolutionMessage) :
    StateInv (pipelineState now bm raw) := by
  refine foldl_inv _ StateInv
    (fun s r hs => processProviderMessage_stateInv now bm s r hs) raw _ ?_
  refine ⟨List.nodup_nil, List.nodup_nil, ?_⟩
  intro p hp
  simp at hp

theorem fill_fold_nodup_keys
    (chatTab : Except Unit (List N8NChatHistory))
    (convTab : Except Unit (List ConversationLog)) :
    ∀ (l : List (List Char)) (mm : List (List Char × List ChatMessage)),
      (mm.map Prod.fst).Nodup →
      (((l.foldl (fun mm phone =>
          let msgs := fetchSupabaseMessagesModel phone chatTab convTab
          if msgs.isEmpty then mm else mapPut mm phone msgs) mm)).map Prod.fst).Nodup := by
  intro l
  induction l with
  | nil => intro mm h; exact h
  | cons q qs ih =>
    intro mm h
    rw [List.foldl_cons]
    apply ih
    dsimp only
    split
    · exact h
    · exact nodup_keys_mapPut _ h

theorem fill_fold_frame
    (chatTab : Except Unit (List N8NChatHistory))
    (convTab : Except Unit (List ConversationLog)) (phone : List Char) :
    ∀ (l : List (List Char)) (mm : List (List Char × List ChatMessage)),
      (∀ q ∈ l, q ≠ phone) →
      mapGet (l.foldl (fun mm phone =>
          let msgs := fetchSupabaseMessagesModel phone chatTab convTab
          if msgs.isEmpty then mm else mapPut mm phone msgs) mm) phone =
        mapGet mm phone := by
  intro l
  induction l with
  | nil => intro mm _; rfl
  | cons q qs ih =>
    intro mm hl
    rw [List.foldl_cons]
    rw [ih _ (fun r hr => hl r (List.mem_cons_of_mem q hr))]
    dsimp only
    split
    · rfl
    · exact mapGet_mapPut_ne _ (fun h => hl q (List.mem_cons_self q qs) h.symm) mm

theorem fill_fold_get
    (chatTab : Except Unit (List N8NChatHistory))
    (convTab : Except Unit (List ConversationLog)) (phone : List Char) :
    ∀ (l : List (List Char)) (mm : List (List Char × List ChatMessage)),
      mapGet (l.foldl (fun mm phone =>
          let msgs := fetchSupabaseMessagesModel phone chatTab convTab
          if msgs.isEmpty then mm else mapPut mm phone msgs) mm) phone =
        mapGet mm phone ∨
      mapGet (l.foldl (fun mm phone =>
          let msgs := fetchSupabaseMessagesModel phone chatTab convTab
          if msgs.isEmpty then mm else mapPut mm phone msgs) mm) phone =
        some (fetchSupabaseMessagesModel phone chatTab convTab) := by
  intro l
  induction l with
  | nil => intro mm; exact Or.inl rfl
  | cons q qs ih =>
    intro mm
    rw [List.foldl_cons]
    by_cases he : (fetchSupabaseMessagesModel q chatTab convTab).isEmpty = true
    · have hstep : (let msgs := fetchSupabaseMessagesModel q chatTab convTab
          if msgs.isEmpty then mm else mapPut mm q msgs) = mm := by
        dsimp only
        rw [if_pos he]
      rw [hstep]
      exact ih mm
    · have hstep : (let msgs := fetchSupabaseMessagesModel q chatTab convTab
          if msgs.isEmpty then mm else mapPut mm q msgs) =
          mapPut mm q (fetchSupabaseMessagesModel q chatTab convTab) := by
        dsimp only
        rw [if_neg he]
      rw [hstep]
      rcases ih (mapPut mm q (fetchSupabaseMessagesModel q chatTab convTab)) with h | h
      · by_cases hq : q = phone
        · subst hq
          rw [h, mapGet_mapPut_self]
          exact Or.inr rfl
        · rw [h, mapGet_mapPut_ne _ (fun hpq => hq hpq.symm)]
          exact Or.inl rfl
      · exact Or.inr h

theorem merged_fold_nodup_keys
    (chatTab : Except Unit (List N8NChatHistory))
    (convTab : Except Unit (List ConversationLog)) :
    ∀ (l : List (List Char)) (mm : List (List Char × List ChatMessage)),
      (mm.map Prod.fst).Nodup →
      ((l.foldl (fun mm phone =>
          let sb := fetchSupabaseMessagesModel phone chatTab convTab
          let merged := sortByKey (fun m => m.timestamp)
            (mergeSupabaseMessages ((mapGet mm phone).getD []) sb)
          mapPut mm phone merged) mm).map Prod.fst).Nodup := by
  intro l
  induction l with
  | nil => intro mm h; exact h
  | cons q qs ih =>
    intro mm h
    rw [List.foldl_cons]
    apply ih
    exact nodup_keys_mapPut _ h

theorem merged_fold_frame
    (chatTab : Except Unit (List N8NChatHistory))
    (convTab : Except Unit (List ConversationLog)) (phone : List Char) :
    ∀ (l : List (List Char)) (mm : List (List Char × List ChatMessage)),
      (∀ q ∈ l, q ≠ phone) →
      mapGet (l.foldl (fun mm phone =>
          let sb := fetchSupabaseMessagesModel phone chatTab convTab
          let merged := sortByKey (fun m => m.timestamp)
            (mergeSupabaseMessages ((mapGet mm phone).getD []) sb)
          mapPut mm phone merged) mm) phone =
        mapGet mm phone := by
  intro l
  induction l with
  | nil => intro mm _; rfl
  | cons q qs ih =>
    intro mm hl
    rw [List.foldl_cons]
    rw [ih _ (fun r hr => hl r (List.mem_cons_of_mem q hr))]
    exact mapGet_mapPut_ne _ (fun h => hl q (List.mem_cons_self q qs) h.symm) mm

theorem merged_fold_get_processed
    (chatTab : Except Unit (List N8NChatHistory))
    (convTab : Except Unit (List ConversationLog)) (phone : List Char) :
    ∀ (l : List (List Char)) (mm : List (List Char × List ChatMessage)),
      l.Nodup → phone ∈ l →
      mapGet (l.foldl (fun mm phone =>
          let sb := fetchSupabaseMessagesModel phone chatTab convTab
          let merged := sortByKey (fun m => m.timestamp)
            (mergeSupabaseMessages ((mapGet mm phone).getD []) sb)
          mapPut mm phone merged) mm) phone =
        some (sortByKey (fun m => m.timestamp)
          (mergeSupabaseMessages ((mapGet mm phone).getD [])
            (fetchSupabaseMessagesModel phone chatTab convTab))) := by
  intro l
  induction l with
  | nil =>
    intro mm _ h
    simp at h
  | cons q qs ih =>
    intro mm hnd hmem
    rcases List.nodup_cons.mp hnd with ⟨hq, hqs⟩
    rw [List.foldl_cons]
    rcases List.mem_cons.mp hmem with rfl | hmem2
    · rw [merged_fold_frame chatTab convTab _ qs _
        (by intro r hr he; rw [he] at hr; exact hq hr)]
      dsimp only
      rw [mapGet_mapPut_self]
    · have hne : phone ≠ q := by
        intro he
        rw [he] at hmem2
        exact hq hmem2
      rw [ih _ hqs hmem2]
      dsimp only
      rw [mapGet_mapPut_ne _ hne]

/-- Every entry of the merged map is the timestamp sort of an explicit
pre-sort input: for a contact of the provider window, the merge of its
provider-derived list with its Supabase history; for a backfilled
contact, the unsorted Supabase assembly. -/
theorem merged_entry_raw
    {chatTab : Except Unit (List N8NChatHistory)}
    {convTab : Except Unit (List ConversationLog)}
    {st : PipelineState} {phone : List Char} {msgs : List ChatMessage}
    (hkeys0 : (st.messagesMap.map Prod.fst).Nodup)
    (hproc0 : st.processedPhones.Nodup)
    (hsub0 : ∀ p, p ∈ st.messagesMap.map Prod.fst → p ∈ st.processedPhones)
    (nums : List (List Char))
    (hmem : (phone, msgs) ∈ pipelineMerged chatTab convTab st
      (pipelineMissingFill chatTab convTab st nums)) :
    ∃ raw : List ChatMessage,
      ((phone ∈ st.processedPhones ∧
        raw = mergeSupabaseMessages ((mapGet st.messagesMap phone).getD [])
          (fetchSupabaseMessagesModel phone chatTab convTab)) ∨
       (phone ∉ st.processedPhones ∧
        raw = supabaseUnsorted phone chatTab convTab)) ∧
      msgs = sortByKey (fun m => m.timestamp) raw := by
  have hkeys1 : ((pipelineMissingFill chatTab convTab st nums).map Prod.fst).Nodup := by
    unfold pipelineMissingFill
    exact fill_fold_nodup_keys chatTab convTab _ _ hkeys0
  have hkeys2 : ((pipelineMerged chatTab convTab st
      (pipelineMissingFill chatTab convTab st nums)).map Prod.fst).Nodup := by
    unfold pipelineMerged
    exact merged_fold_nodup_keys chatTab convTab _ _ hkeys1
  have hget2 := mapGet_of_mem_nodup hkeys2 hmem
  by_cases hp : phone ∈ st.processedPhones
  · have hgetc : mapGet (pipelineMerged chatTab convTab st
        (pipelineMissingFill chatTab convTab st nums)) phone =
        some (sortByKey (fun m => m.timestamp)
          (mergeSupabaseMessages
            ((mapGet (pipelineMissingFill chatTab convTab st nums) phone).getD [])
            (fetchSupabaseMessagesModel phone chatTab convTab))) := by
      unfold pipelineMerged
      exact merged_fold_get_processed chatTab convTab phone _ _ hproc0 hp
    have hframe : mapGet (pipelineMissingFill chatTab convTab st nums) phone =
        mapGet st.messagesMap phone := by
      unfold pipelineMissingFill
      apply fill_fold_frame
      intro q hq hqp
      have hq2 := (List.mem_filter.mp hq).2
      rw [hqp] at hq2
      simp only [decide_eq_true_eq] at hq2
      exact hq2 hp
    rw [hget2] at hgetc
    injection hgetc with hgetc
    rw [hframe] at hgetc
    exact ⟨mergeSupabaseMessages ((mapGet st.messagesMap phone).getD [])
        (fetchSupabaseMessagesModel phone chatTab convTab),
      Or.inl ⟨hp, rfl⟩, hgetc⟩
  · have hframe2 : mapGet (pipelineMerged chatTab convTab st
        (pipelineMissingFill chatTab convTab st nums)) phone =
        mapGet (pipelineMissingFill chatTab convTab st nums) phone := by
      unfold pipelineMerged
      apply merged_fold_frame
      intro q hq hqp
      rw [hqp] at hq
      exact hp hq
    rw [hframe2] at hget2
    unfold pipelineMissingFill at hget2
    rcases fill_fold_get chatTab convTab phone
        (nums.filter (fun p => decide (p ∉ st.processedPhones))) st.messagesMap with hd | hd
    · rw [hd] at hget2
      exact absurd (hsub0 phone (mapGet_mem_keys hget2)) hp
    · rw [hd] at hget2
      injection hget2 with hget2
      refine ⟨supabaseUnsorted phone chatTab convTab, Or.inr ⟨hp, rfl⟩, ?_⟩
      rw [← hget2]
      rfl

/-! ### Direction and attribution invariant -/

/-- The invariant of the original claim: incoming messages are never
attributed to the assistant. -/
def IncomingNotBot (m : ChatMessage) : Prop :=
  m.message_type = Direction.incoming → m.is_from_bot = false

theorem transformMessage_incomingNotBot (now : Int) (msg : EvolutionMessage) :
    IncomingNotBot (transformMessage now msg) := by
  intro h
  by_cases hf : msg.key.fromMe
  · simp [transformMessage, hf] at h
  · simp [transformMessage, isFromBot, hf]

theorem classifyOutgoing_incomingNotBot (bm : BotMap) (t : ChatMessage)
    (h : IncomingNotBot t) : IncomingNotBot (classifyOutgoing bm t) := by
  by_cases ho : t.message_type = Direction.outgoing
  · rw [classifyOutgoing, if_pos ho]
    intro hi
    simp only at hi
    rw [ho] at hi
    cases hi
  · rw [classifyOutgoing, if_neg ho]
    exact h

theorem n8nRowToMsg_incomingNotBot (p : List Char) (row : N8NChatHistory)
    (m : ChatMessage) (h : n8nRowToMsg p row = some m) : IncomingNotBot m := by
  unfold n8nRowToMsg at h
  split at h
  · cases h
  · next msg heq =>
    split at h
    · dsimp only at h
      have tail : ∀ c : List Char,
          ((if c = [] ∨ containsSub callingMarker c = true ∨ c.head? = some braceChar then
              none
            else
              some { id := "n8n-".toList ++ (toString row.id).toList
                     message_key_id := "n8n-".toList ++ (toString row.id).toList
                     whatsapp_number := p
                     sender_name := if msg.type == humanType then p else aiAssistantName
                     message_type :=
                       if msg.type == aiType then Direction.outgoing else Direction.incoming
                     message_content := c
                     message_media_type := MediaType.text
                     media_url := none
                     timestamp := row.created_at
                     created_at := row.created_at
                     status := readStat
                     is_from_bot := msg.type == aiType }) = some m) →
          IncomingNotBot m := by
        intro c hc
        split at hc
        · cases hc
        · injection hc with hc
          subst hc
          intro hi
          simp only at hi ⊢
          by_cases ha : (msg.type == aiType) = true
          · rw [if_pos ha] at hi
            cases hi
          · rw [if_neg ha] at hi
            simp only [Bool.not_eq_true] at ha
            exact ha
      by_cases hh : (msg.type == humanType && containsSub userMarker msg.content) = true
      · rw [if_pos hh] at h
        exact tail _ h
      · rw [if_neg hh] at h
        exact tail _ h
    · cases h

theorem convRowToMsg_incomingNotBot (p : List Char) (row : ConversationLog)
    (hrow : row.message_type = Direction.incoming → row.is_bot_question = false) :
    IncomingNotBot (convRowToMsg p row) := by
  intro hi
  simp only [convRowToMsg] at hi ⊢
  exact hrow hi

theorem fetchSupabaseMessages_incomingNotBot (p : List Char)
    (chatResp : Except Unit (List N8NChatHistory)) (convRows : List ConversationLog)
    (hrows : ∀ r ∈ convRows, r.message_type = Direction.incoming → r.is_bot_question = false) :
    ∀ m ∈ fetchSupabaseMessagesModel p chatResp (Except.ok convRows), IncomingNotBot m := by
  intro m hm
  unfold fetchSupabaseMessagesModel at hm
  rw [mem_sortByKey] at hm
  unfold supabaseUnsorted at hm
  dsimp only at hm
  rcases mem_convLogsFold hm with hb | ⟨row, hrmem, rfl⟩
  · cases chatResp with
    | error e => simp at hb
    | ok rows =>
      simp only at hb
      rcases List.mem_filterMap.mp hb with ⟨r, _, hsome⟩
      exact n8nRowToMsg_incomingNotBot p r m hsome
  · apply convRowToMsg_incomingNotBot
    intro hi
    have hmem : row ∈ convRows := by
      rw [mem_sortByKey] at hrmem
      exact (List.mem_filter.mp hrmem).1
    exact hrows row hmem hi

theorem processProviderMessage_mapInv (now : Int) (bm : BotMap)
    (st : PipelineState) (msg : EvolutionMessage)
    (h : MapAll IncomingNotBot st.messagesMap) :
    MapAll IncomingNotBot (processProviderMessage now bm st msg).messagesMap := by
  unfold processProviderMessage
  split
  · exact h
  · split
    · exact h
    · split
      · exact h
      · dsimp only
        split
        · exact h
        · exact mapAll_mapAppendMsg h
            (classifyOutgoing_incomingNotBot _ _ (transformMessage_incomingNotBot _ _))

/-! ### Concrete fixtures for witnesses and counterexamples -/

/-- Empty chat message used as a fallback default. -/
def blankChat : ChatMessage :=
  { id := [], message_key_id := [], whatsapp_number := [], sender_name := [],
    message_type := Direction.incoming, message_content := [],
    message_media_type := MediaType.other, media_url := none,
    timestamp := 0, created_at := 0, status := [], is_from_bot := false }

/-- Empty conversation used as a fallback default. -/
def blankConv : GroupedConversation :=
  { whatsapp_number := [], contact_name := [], messages := [],
    last_message := blankChat, unread_count := 0 }

/-- Provider-side message with fingerprint a at time zero. -/
def provMsgA : ChatMessage :=
  { blankChat with
    id := "p1".toList
    message_content := "a".toList
    message_media_type := MediaType.text
    timestamp := 0
    created_at := 0 }

/-- Log-side message whose fingerprint a b has the provider fingerprint
as a proper prefix, 30 seconds later. -/
def logMsgPrefix : ChatMessage :=
  { blankChat with
    id := "l1".toList
    message_content := "a b".toList
    message_media_type := MediaType.text
    timestamp := 30000
    created_at := 30000 }

/-- Log-side message with the identical fingerprint, 30 seconds later. -/
def logMsgSame30 : ChatMessage :=
  { blankChat with
    id := "l2".toList
    message_content := "a".toList
    message_media_type := MediaType.text
    timestamp := 30000
    created_at := 30000 }

/-- Log-side message with the identical fingerprint, 5 minutes later. -/
def logMsgSame300 : ChatMessage :=
  { blankChat with
    id := "l3".toList
    message_content := "a".toList
    message_media_type := MediaType.text
    timestamp := 300000
    created_at := 300000 }

/-- Witness phone number. -/
def wPhone : List Char := "971501234567".toList

/-- Accumulated n8n message for the conversation_logs dedup witness. -/
def convDupMsg : ChatMessage :=
  { blankChat with
    id := "n1".toList
    message_content := "hi".toList
    message_media_type := MediaType.text
    timestamp := 0
    created_at := 0 }

/-- Outgoing-log row duplicating the accumulated message 30 seconds
later. -/
def convDupRow : ConversationLog :=
  { id := "r1".toList, whatsapp_number := wPhone, message_type := Direction.outgoing,
    message_content := "hi".toList, created_at := 30000,
    is_bot_question := true, resolved := true }

/-- Standard-form contact identifier of the spec examples. -/
def waJidW : List Char := "971501234567@s.whatsapp.net".toList

/-- Opaque linked identifier of the spec examples. -/
def lidJidW : List Char := "8839201@lid".toList

/-- Canonical phone number of the spec examples. -/
def phoneW : List Char := "971501234567".toList

/-- Session of the attribution witness. -/
def wSession : List Char := "971505555555".toList

/-- Generation-log row carrying a 140 character assistant text. -/
def aiLogRow : N8NChatHistory :=
  { id := 1, session_id := wSession,
    message := some { type := aiType, content := List.replicate 140 'a' }, created_at := 0 }

/-- Outgoing provider message whose text is the 100 character prefix
truncation of the assistant log entry. -/
def botCandidateMsg : ChatMessage :=
  { blankChat with
    id := "c1".toList
    whatsapp_number := wSession
    message_type := Direction.outgoing
    message_content := List.replicate 100 'a'
    message_media_type := MediaType.text }

/-! ### Claim C1 -/

/-- Claim C1 is refuted: these two cross-source messages have
normalized fingerprints that are mutual prefixes (the first is a proper
prefix of the second) and timestamps 30 seconds apart, yet both survive
the merge of fetchGroupedConversations, because the code requires the
fingerprints to be strictly equal. -/
theorem C1_dedup_counterexample :
    (normalizeMessageContent provMsgA.message_content).isPrefixOf
        (normalizeMessageContent logMsgPrefix.message_content) = true ∧
    (provMsgA.timestamp - logMsgPrefix.timestamp).natAbs < 60000 ∧
    (mergeSupabaseMessages [provMsgA] [logMsgPrefix]).length = 2 := by
  decide

/-- Claim C1 (amended): in both cross-source merges two messages are
treated as duplicates, exactly one surviving, if and only if their
normalized text fingerprints are EQUAL (mutual prefixes do not suffice)
and their timestamps differ by strictly less than 60000 milliseconds;
in particular a message present in both sources with identical
normalized text survives once at 30 seconds apart and twice at 5
minutes apart. -/
theorem C1_dedup_amended :
    (∀ m s : ChatMessage,
        (mergeSupabaseMessages [m] [s]).length = 1 ↔
          (normalizeMessageContent m.message_content =
              normalizeMessageContent s.message_content ∧
            (m.timestamp - s.timestamp).natAbs < 60000)) ∧
    (∀ (p : List Char) (m : ChatMessage) (row : ConversationLog),
        row.message_content ≠ [] →
          ((convLogsFold p [m] [row]).length = 1 ↔
            (normalizeMessageContent m.message_content =
                normalizeMessageContent row.message_content ∧
              (m.created_at - row.created_at).natAbs < 60000))) ∧
    (mergeSupabaseMessages [provMsgA] [logMsgSame30]).length = 1 ∧
    (mergeSupabaseMessages [provMsgA] [logMsgSame300]).length = 2 := by
  refine ⟨?_, ?_, by decide, by decide⟩
  · intro m s
    have hmerge : mergeSupabaseMessages [m] [s] =
        if isDupAt m.timestamp s.timestamp m.message_content s.message_content then [m]
        else [m, s] := by
      simp only [mergeSupabaseMessages, List.foldl_cons, List.foldl_nil, List.any_cons,
        List.any_nil, Bool.or_false]
      by_cases hd : isDupAt m.timestamp s.timestamp m.message_content s.message_content = true
      · rw [hd]
        rfl
      · rw [Bool.not_eq_true] at hd
        rw [hd]
        rfl
    rw [hmerge]
    by_cases hd : isDupAt m.timestamp s.timestamp m.message_content s.message_content = true
    · rw [if_pos hd]
      simp only [isDupAt, Bool.and_eq_true, beq_iff_eq, decide_eq_true_eq] at hd
      simp [hd]
    · rw [if_neg hd]
      simp only [isDupAt, Bool.and_eq_true, beq_iff_eq, decide_eq_true_eq] at hd
      simp only [List.length_cons, List.length_nil]
      constructor
      · intro h2
        omega
      · intro hcond
        exact absurd hcond hd
  · intro p m row hrow
    have hfold : convLogsFold p [m] [row] =
        if isDupAt m.created_at row.created_at m.message_content row.message_content then [m]
        else [m, convRowToMsg p row] := by
      simp only [convLogsFold, List.foldl_cons, List.foldl_nil, List.any_cons,
        List.any_nil, Bool.or_false]
      by_cases hd : isDupAt m.created_at row.created_at m.message_content row.message_content =
          true
      · rw [hd]
        simp
      · rw [Bool.not_eq_true] at hd
        rw [hd]
        simp [hrow]
    rw [hfold]
    by_cases hd : isDupAt m.created_at row.created_at m.message_content row.message_content =
        true
    · rw [if_pos hd]
      simp only [isDupAt, Bool.and_eq_true, beq_iff_eq, decide_eq_true_eq] at hd
      simp [hd]
    · rw [if_neg hd]
      simp only [isDupAt, Bool.and_eq_true, beq_iff_eq, decide_eq_true_eq] at hd
      simp only [List.length_cons, List.length_nil]
      constructor
      · intro h2
        omega
      · intro hcond
        exact absurd hcond hd

/-- Witness for the amended claim C1: a concrete outgoing-log row whose
fingerprint equals the accumulated message and lies 30 seconds later is
deduplicated, exactly one message surviving. -/
theorem C1_dedup_amended_witness :
    (convLogsFold wPhone [convDupMsg] [convDupRow]).length = 1 :=
  (C1_dedup_amended.2.1 wPhone convDupMsg convDupRow (by decide)).mpr (by decide)

/-! ### Claim C2 -/

theorem containsSub_append_self (pat : List Char) :
    ∀ pre : List Char, containsSub pat (pre ++ pat) = true := by
  intro pre
  induction pre with
  | nil =>
    cases pat with
    | nil => rfl
    | cons c rest =>
      have hp : (c :: rest).isPrefixOf (c :: rest) = true := by
        rw [List.isPrefixOf_iff_prefix]
      simp [containsSub, hp]
  | cons c pre ih =>
    simp [containsSub, ih]

/-- Claim C2: the contact identity resolver as used by the pipeline
yields the canonical phone number for a standard identifier without an
alternate, resolves an opaque linked identifier through its alternate,
rejects an opaque linked identifier without an alternate, and rejects
every identifier ending in the group suffix for every alternate. -/
theorem C2_identity_resolution :
    resolveContactKey waJidW none = some phoneW ∧
    resolveContactKey lidJidW (some waJidW) = some phoneW ∧
    resolveContactKey lidJidW none = none ∧
    (∀ (pre : List Char) (alt : Option (List Char)),
      resolveContactKey (pre ++ gusSuffix) alt = none) := by
  refine ⟨by decide, by decide, by decide, ?_⟩
  intro pre alt
  unfold resolveContactKey
  rw [if_pos (containsSub_append_self gusSuffix pre)]

/-! ### Claim C3 -/

/-- Claim C3: with the generation log available for the contact, an
outgoing message is classified automated if and only if its normalized
fingerprint is a prefix of, or has as a prefix, some fingerprint of the
contact set; the fingerprints are 100 character truncations, and the
100 character prefix truncation of a 140 character assistant log entry
is classified automated against the set built by fetchBotMessages. -/
theorem C3_attribution_primary :
    (∀ (bm : BotMap) (t : ChatMessage) (fps : List (List Char)),
        t.message_type = Direction.outgoing →
        mapGet bm t.whatsapp_number = some fps →
        ((classifyOutgoing bm t).is_from_bot = true ↔
          ∃ fp ∈ fps,
            ((normalizeMessageContent t.message_content).isPrefixOf fp ||
              fp.isPrefixOf (normalizeMessageContent t.message_content)) = true)) ∧
    normalizeMessageContent (List.replicate 140 'a') = List.replicate 100 'a' ∧
    checkIfBotMessage (List.replicate 100 'a') wSession (buildBotMessages [aiLogRow]) = true := by
  refine ⟨?_, by decide, by decide⟩
  intro bm t fps ho hg
  rw [classifyOutgoing, if_pos ho]
  show checkIfBotMessage t.message_content t.whatsapp_number bm = true ↔ _
  unfold checkIfBotMessage
  dsimp only
  rw [hg]
  exact List.any_eq_true

/-- Witness for claim C3: the truncated assistant reply is classified
automated by the pipeline override. -/
theorem C3_attribution_primary_witness :
    (classifyOutgoing (buildBotMessages [aiLogRow]) botCandidateMsg).is_from_bot = true :=
  (C3_attribution_primary.1 (buildBotMessages [aiLogRow]) botCandidateMsg
      [List.replicate 100 'a'] rfl (by decide)).mpr (by decide)

/-! ### Claim C4 -/

/-- Outgoing provider message containing a known greeting phrase. -/
def greetEvoMsg : EvolutionMessage :=
  { id := "m1".toList
    key := { id := "k1".toList, fromMe := true,
             remoteJid := "971501111111@s.whatsapp.net".toList, remoteJidAlt := none }
    pushName := "Clinic".toList
    message := some { conversation := some ("مرحبا بك في العيادة".toList) }
    messageTimestamp := 1000
    messageUpdate := [] }

/-- Claim C4 is refuted: with an empty generation-log map, so that the
contact has no entries there, an outgoing provider message whose
content matches the greeting-phrase pattern list is still classified
human by the pipeline, because the checkIfBotMessage result overrides
the pattern-based value unconditionally for outgoing messages. -/
theorem C4_fallback_counterexample :
    isFromBotPattern greetEvoMsg = true ∧
    ((fetchGroupedConversationsModel 0 false [] (Except.ok ([greetEvoMsg], 1, 1))
        (Except.ok []) (Except.ok []) (Except.ok []) (Except.ok []) (Except.ok [])).map
      (fun g => g.messages.map (fun m => (m.message_type, m.is_from_bot)))) =
    [[(Direction.outgoing, false)]] := by
  decide

/-- Claim C4 (amended): in the reconciliation pipeline every outgoing
provider message is classified solely by checkIfBotMessage against the
generation log, and when the contact has no entries there the result is
human (false) regardless of any greeting-phrase match; the pattern
fallback computed in transformMessage is unconditionally overridden
for outgoing messages. -/
theorem C4_fallback_amended :
    (∀ (bm : BotMap) (t : ChatMessage),
        t.message_type = Direction.outgoing →
        (classifyOutgoing bm t).is_from_bot =
          checkIfBotMessage t.message_content t.whatsapp_number bm) ∧
    (∀ (content sid : List Char) (bm : BotMap),
        mapGet bm sid = none → checkIfBotMessage content sid bm = false) := by
  constructor
  · intro bm t ho
    rw [classifyOutgoing, if_pos ho]
  · intro content sid bm hg
    unfold checkIfBotMessage
    dsimp only
    rw [hg]

/-- Witness for the amended claim C4: a greeting-phrase content for a
contact absent from the generation-log map is classified human. -/
theorem C4_fallback_amended_witness :
    checkIfBotMessage ("مرحبا بك في العيادة".toList) ("971501111111".toList) [] = false :=
  C4_fallback_amended.2 ("مرحبا بك في العيادة".toList) ("971501111111".toList) [] rfl

/-! ### Claim C5 -/

/-- Incoming provider message at the later time. -/
def w5msg1 : EvolutionMessage :=
  { id := "e1".toList
    key := { id := "ek1".toList, fromMe := false,
             remoteJid := "971502222222@s.whatsapp.net".toList, remoteJidAlt := none }
    pushName := "Patient".toList
    message := some { conversation := some ("hello there".toList) }
    messageTimestamp := 2000
    messageUpdate := [] }

/-- Incoming provider message at the earlier time, same contact. -/
def w5msg2 : EvolutionMessage :=
  { id := "e2".toList
    key := { id := "ek2".toList, fromMe := false,
             remoteJid := "971502222222@s.whatsapp.net".toList, remoteJidAlt := none }
    pushName := "Patient".toList
    message := some { conversation := some ("hi again".toList) }
    messageTimestamp := 1000
    messageUpdate := [] }

/-- Incoming provider message tying the earlier timestamp, arriving
after the second message, same contact. -/
def w5msg3 : EvolutionMessage :=
  { id := "e3".toList
    key := { id := "ek3".toList, fromMe := false,
             remoteJid := "971502222222@s.whatsapp.net".toList, remoteJidAlt := none }
    pushName := "Patient".toList
    message := some { conversation := some ("how are you".toList) }
    messageTimestamp := 1000
    messageUpdate := [] }

/-- Provider response of the claim C5 witness run: three messages, two
of them with equal timestamps. -/
def w5prov : Except Unit (List EvolutionMessage × Int × Int) :=
  Except.ok ([w5msg1, w5msg2, w5msg3], 3, 1)

/-- Provider loop state of the claim C5 witness run. -/
def w5state : PipelineState :=
  pipelineState 0 (fetchBotMessagesModel false [] (Except.ok []))
    (fetchMessagesModel w5prov).messages

/-- First conversation of the claim C5 witness run. -/
def convW5 : GroupedConversation :=
  (fetchGroupedConversationsModel 0 false [] w5prov (Except.ok []) (Except.ok [])
    (Except.ok []) (Except.ok []) (Except.ok [])).headD blankConv

/-- Claim C5: in every conversation produced by the pipeline the
message list is sorted non-decreasing by timestamp, and it is the
stable sort of the actual pre-sort merged input of that contact:
for a contact of the provider window, the provider-derived map entry
merged with its Supabase history (lines 739 to 749); for a backfilled
contact, the Supabase assembly in table order (lines 383 to 466).
Messages with equal timestamps keep the order of that merged input
list. -/
theorem C5_sorted_stable (now : Int) (fresh : Bool) (cache : BotMap)
    (provResp : Except Unit (List EvolutionMessage × Int × Int))
    (botResp : Except Unit (List N8NChatHistory))
    (chatNums convNums : Except Unit (List (List Char)))
    (chatTab : Except Unit (List N8NChatHistory))
    (convTab : Except Unit (List ConversationLog)) :
    ∀ conv ∈ fetchGroupedConversationsModel now fresh cache provResp botResp
        chatNums convNums chatTab convTab,
      List.Pairwise (fun a b : ChatMessage => a.timestamp ≤ b.timestamp) conv.messages ∧
      ∃ raw : List ChatMessage,
        ((conv.whatsapp_number ∈
            (pipelineState now (fetchBotMessagesModel fresh cache botResp)
              (fetchMessagesModel provResp).messages).processedPhones ∧
          raw = mergeSupabaseMessages
            ((mapGet (pipelineState now (fetchBotMessagesModel fresh cache botResp)
                (fetchMessagesModel provResp).messages).messagesMap
              conv.whatsapp_number).getD [])
            (fetchSupabaseMessagesModel conv.whatsapp_number chatTab convTab)) ∨
         (conv.whatsapp_number ∉
            (pipelineState now (fetchBotMessagesModel fresh cache botResp)
              (fetchMessagesModel provResp).messages).processedPhones ∧
          raw = supabaseUnsorted conv.whatsapp_number chatTab convTab)) ∧
        conv.messages = sortByKey (fun m => m.timestamp) raw ∧
        (∀ t : Int,
          conv.messages.filter (fun m => m.timestamp == t) =
            raw.filter (fun m => m.timestamp == t)) := by
  intro conv hconv
  obtain ⟨phone, msgs, hmem, hmk⟩ := mem_model hconv
  obtain ⟨hmsgs, _, _, hphone⟩ := mkConv_some hmk
  obtain ⟨hkeys0, hproc0, hsub0⟩ :=
    pipelineState_inv now (fetchBotMessagesModel fresh cache botResp)
      (fetchMessagesModel provResp).messages
  obtain ⟨raw, hcase, hraw⟩ :=
    merged_entry_raw hkeys0 hproc0 hsub0
      (fetchAllConversationNumbersModel chatNums convNums) hmem
  refine ⟨?_, raw, ?_, ?_, ?_⟩
  · rw [hmsgs]
    exact pairwise_sortByKey _ _
  · rw [hphone]
    exact hcase
  · rw [hmsgs, hraw]
    exact sortByKey_idem _ _
  · intro t
    rw [hmsgs, hraw]
    exact (filter_sortByKey (fun m : ChatMessage => m.timestamp) t _).trans
      (filter_sortByKey (fun m : ChatMessage => m.timestamp) t _)

/-- Witness for claim C5 on a concrete run with a timestamp tie. -/
theorem C5_sorted_stable_witness :
    List.Pairwise (fun a b : ChatMessage => a.timestamp ≤ b.timestamp) convW5.messages ∧
    ∃ raw : List ChatMessage,
      ((convW5.whatsapp_number ∈ w5state.processedPhones ∧
        raw = mergeSupabaseMessages
          ((mapGet w5state.messagesMap convW5.whatsapp_number).getD [])
          (fetchSupabaseMessagesModel convW5.whatsapp_number (Except.ok [])
            (Except.ok []))) ∨
       (convW5.whatsapp_number ∉ w5state.processedPhones ∧
        raw = supabaseUnsorted convW5.whatsapp_number (Except.ok []) (Except.ok []))) ∧
      convW5.messages = sortByKey (fun m => m.timestamp) raw ∧
      (∀ t : Int,
        convW5.messages.filter (fun m => m.timestamp == t) =
          raw.filter (fun m => m.timestamp == t)) :=
  C5_sorted_stable 0 false [] w5prov (Except.ok []) (Except.ok []) (Except.ok [])
    (Except.ok []) (Except.ok []) convW5 (by decide)

/-! ### Claim C6 -/

/-- Phone of the claim C6 counterexample. -/
def phoneW6 : List Char := "971509999999".toList

/-- Incoming conversation_logs row flagged is_bot_question. -/
def rowW6 : ConversationLog :=
  { id := "r6".toList
    whatsapp_number := phoneW6
    message_type := Direction.incoming
    message_content := "hello".toList
    created_at := 0
    is_bot_question := true
    resolved := false }

/-- Claim C6 is refuted: a conversation_logs row with incoming
direction and the is_bot_question flag set yields, in the merged output
of fetchGroupedConversations, an incoming message attributed to the
assistant. -/
theorem C6_incoming_counterexample :
    ∃ conv ∈ fetchGroupedConversationsModel 0 false [] (Except.ok ([], 0, 0))
        (Except.ok []) (Except.ok []) (Except.ok [phoneW6]) (Except.ok [])
        (Except.ok [rowW6]),
      ∃ m ∈ conv.messages, m.message_type = Direction.incoming ∧ m.is_from_bot = true := by
  decide

/-- Claim C6 (amended): provider-derived and generation-log-derived
incoming messages are never attributed to the assistant; a
conversation_logs-derived message carries the is_bot_question flag of
its row whatever its direction, so the invariant holds exactly when no
incoming row of that table is flagged: under that hypothesis no
incoming message of the merged output has is_from_bot set. -/
theorem C6_incoming_amended (now : Int) (fresh : Bool) (cache : BotMap)
    (provResp : Except Unit (List EvolutionMessage × Int × Int))
    (botResp : Except Unit (List N8NChatHistory))
    (chatNums convNums : Except Unit (List (List Char)))
    (chatTab : Except Unit (List N8NChatHistory))
    (convRows : List ConversationLog)
    (hrows : ∀ r ∈ convRows,
      r.message_type = Direction.incoming → r.is_bot_question = false) :
    ∀ conv ∈ fetchGroupedConversationsModel now fresh cache provResp botResp
        chatNums convNums chatTab (Except.ok convRows),
      ∀ m ∈ conv.messages,
        m.message_type = Direction.incoming → m.is_from_bot = false := by
  intro conv hconv m hm
  obtain ⟨phone, msgs, hmem, hmk⟩ := mem_model hconv
  obtain ⟨hmsgs, _, _, _⟩ := mkConv_some hmk
  have hsup : ∀ (p : List Char),
      ∀ x ∈ fetchSupabaseMessagesModel p chatTab (Except.ok convRows), IncomingNotBot x :=
    fun p => fetchSupabaseMessages_incomingNotBot p chatTab convRows hrows
  have hmap0 : MapAll IncomingNotBot
      (pipelineState now (fetchBotMessagesModel fresh cache botResp)
        (fetchMessagesModel provResp).messages).messagesMap := by
    refine foldl_inv _ (fun st => MapAll IncomingNotBot st.messagesMap)
      (fun s r hs => processProviderMessage_mapInv now _ s r hs) _ _ ?_
    intro e he
    simp at he
  have hmap1 : MapAll IncomingNotBot
      (pipelineMissingFill chatTab (Except.ok convRows)
        (pipelineState now (fetchBotMessagesModel fresh cache botResp)
          (fetchMessagesModel provResp).messages)
        (fetchAllConversationNumbersModel chatNums convNums)) := by
    unfold pipelineMissingFill
    refine foldl_inv _ (MapAll IncomingNotBot) ?_ _ _ hmap0
    intro mm p hmm
    dsimp only
    split
    · exact hmm
    · exact mapAll_mapPut hmm (hsup p)
  have hmap2 : MapAll IncomingNotBot
      (pipelineMerged chatTab (Except.ok convRows)
        (pipelineState now (fetchBotMessagesModel fresh cache botResp)
          (fetchMessagesModel provResp).messages)
        (pipelineMissingFill chatTab (Except.ok convRows)
          (pipelineState now (fetchBotMessagesModel fresh cache botResp)
            (fetchMessagesModel provResp).messages)
          (fetchAllConversationNumbersModel chatNums convNums))) := by
    unfold pipelineMerged
    refine foldl_inv _ (MapAll IncomingNotBot) ?_ _ _ hmap1
    intro mm p hmm
    dsimp only
    apply mapAll_mapPut hmm
    intro x hx
    rw [mem_sortByKey] at hx
    rcases mem_mergeSupabaseMessages hx with hx | hx
    · cases hget : mapGet mm p with
      | none =>
        rw [hget] at hx
        simp at hx
      | some msgs0 =>
        rw [hget] at hx
        exact mapAll_get hmm hget x hx
    · exact hsup p x hx
  have hx : m ∈ msgs := by
    rw [hmsgs] at hm
    exact (mem_sortByKey _ _ _).mp hm
  exact hmap2 (phone, msgs) hmem m hx

/-- Phone of the claim C6 witness. -/
def phoneW6b : List Char := "971508888888".toList

/-- Incoming conversation_logs row with the is_bot_question flag
clear. -/
def goodRowW6 : ConversationLog :=
  { id := "r7".toList
    whatsapp_number := phoneW6b
    message_type := Direction.incoming
    message_content := "hey".toList
    created_at := 0
    is_bot_question := false
    resolved := false }

/-- First conversation of the claim C6 witness run. -/
def convW6b : GroupedConversation :=
  (fetchGroupedConversationsModel 0 false [] (Except.ok ([], 0, 0)) (Except.ok [])
    (Except.ok []) (Except.ok [phoneW6b]) (Except.ok []) (Except.ok [goodRowW6])).headD
    blankConv

/-- First message of the claim C6 witness conversation. -/
def msgW6b : ChatMessage := convW6b.messages.headD blankChat

/-- Witness for the amended claim C6 on a concrete run. -/
theorem C6_incoming_amended_witness : msgW6b.is_from_bot = false :=
  C6_incoming_amended 0 false [] (Except.ok ([], 0, 0)) (Except.ok []) (Except.ok [])
    (Except.ok [phoneW6b]) (Except.ok []) [goodRowW6] (by decide) convW6b (by decide)
    msgW6b (by decide) (by decide)

/-! ### Claim C7 -/

theorem truthyStr_some_ne {s : List Char} (hs : s ≠ []) : truthyStr (some s) = true := by
  cases s with
  | nil => exact absurd rfl hs
  | cons c cs => rfl

/-- Payload of the claim C7 concrete example: only an image caption. -/
def imgOnlyPayload : EvoPayload :=
  { imageMessage := some { caption := some ("hello".toList) } }

/-- Image payload of the claim C7 witness. -/
def imgW : ImageMsg := { caption := some ("hi".toList), url := some ("u1".toList) }

/-- Payload of the claim C7 witness. -/
def imgPayloadW : EvoPayload := { imageMessage := some imgW }

/-- Claim C7: the message normalizer applies the payload resolution
order with first match winning, producing for each shape the documented
content, kind and locator; the concrete image-caption and fully-null
examples hold, and a message whose extracted text is empty with kind
other is dropped by the provider loop. -/
theorem C7_content_extraction :
    (extractMessageContent none =
      { content := [], mediaType := MediaType.other, mediaUrl := none }) ∧
    (∀ (m : EvoPayload) (s : List Char), m.conversation = some s → s ≠ [] →
      extractMessageContent (some m) =
        { content := s, mediaType := MediaType.text, mediaUrl := none }) ∧
    (∀ (m : EvoPayload) (s : List Char), truthyStr m.conversation = false →
      m.extendedTextMessage = some s → s ≠ [] →
      extractMessageContent (some m) =
        { content := s, mediaType := MediaType.text, mediaUrl := none }) ∧
    (∀ (m : EvoPayload) (im : ImageMsg), truthyStr m.conversation = false →
      truthyStr m.extendedTextMessage = false → m.imageMessage = some im →
      extractMessageContent (some m) =
        { content := jsOr im.caption [], mediaType := MediaType.image,
          mediaUrl := im.url }) ∧
    (∀ (m : EvoPayload) (am : AudioMsg), truthyStr m.conversation = false →
      truthyStr m.extendedTextMessage = false → m.imageMessage = none →
      m.audioMessage = some am →
      extractMessageContent (some m) =
        { content := [], mediaType := MediaType.audio, mediaUrl := am.url }) ∧
    (∀ (m : EvoPayload) (dm : DocumentMsg), truthyStr m.conversation = false →
      truthyStr m.extendedTextMessage = false → m.imageMessage = none →
      m.audioMessage = none → m.documentMessage = some dm →
      extractMessageContent (some m) =
        { content := jsOr dm.fileName docDefault, mediaType := MediaType.document,
          mediaUrl := dm.url }) ∧
    (∀ (m : EvoPayload) (vm : VideoMsg), truthyStr m.conversation = false →
      truthyStr m.extendedTextMessage = false → m.imageMessage = none →
      m.audioMessage = none → m.documentMessage = none → m.videoMessage = some vm →
      extractMessageContent (some m) =
        { content := jsOr vm.caption [], mediaType := MediaType.video,
          mediaUrl := vm.url }) ∧
    (∀ (m : EvoPayload) (sm : StickerMsg), truthyStr m.conversation = false →
      truthyStr m.extendedTextMessage = false → m.imageMessage = none →
      m.audioMessage = none → m.documentMessage = none → m.videoMessage = none →
      m.stickerMessage = some sm →
      extractMessageContent (some m) =
        { content := [], mediaType := MediaType.sticker, mediaUrl := sm.url }) ∧
    (∀ (m : EvoPayload) (lm : LocationMsg), truthyStr m.conversation = false →
      truthyStr m.extendedTextMessage = false → m.imageMessage = none →
      m.audioMessage = none → m.documentMessage = none → m.videoMessage = none →
      m.stickerMessage = none → m.locationMessage = some lm →
      extractMessageContent (some m) =
        { content := locationContent lm.degreesLatitude lm.degreesLongitude,
          mediaType := MediaType.other, mediaUrl := none }) ∧
    (∀ (m : EvoPayload) (cm : ContactMsg), truthyStr m.conversation = false →
      truthyStr m.extendedTextMessage = false → m.imageMessage = none →
      m.audioMessage = none → m.documentMessage = none → m.videoMessage = none →
      m.stickerMessage = none → m.locationMessage = none → m.contactMessage = some cm →
      extractMessageContent (some m) =
        { content := "👤 ".toList ++ jsOr cm.displayName contactDefault,
          mediaType := MediaType.other, mediaUrl := none }) ∧
    (∀ (m : EvoPayload) (rm : ReactionMsg), truthyStr m.conversation = false →
      truthyStr m.extendedTextMessage = false → m.imageMessage = none →
      m.audioMessage = none → m.documentMessage = none → m.videoMessage = none →
      m.stickerMessage = none → m.locationMessage = none → m.contactMessage = none →
      m.reactionMessage = some rm →
      extractMessageContent (some m) =
        { content := jsOr rm.text thumbsUp, mediaType := MediaType.other,
          mediaUrl := none }) ∧
    (∀ m : EvoPayload, truthyStr m.conversation = false →
      truthyStr m.extendedTextMessage = false → m.imageMessage = none →
      m.audioMessage = none → m.documentMessage = none → m.videoMessage = none →
      m.stickerMessage = none → m.locationMessage = none → m.contactMessage = none →
      m.reactionMessage = none →
      extractMessageContent (some m) =
        { content := attachmentPlaceholder, mediaType := MediaType.other,
          mediaUrl := none }) ∧
    (extractMessageContent (some imgOnlyPayload) =
      { content := "hello".toList, mediaType := MediaType.image, mediaUrl := none }) ∧
    (∀ (now : Int) (bm : BotMap) (st : PipelineState) (msg : EvolutionMessage),
      (extractMessageContent msg.message).content = [] →
      (extractMessageContent msg.message).mediaType = MediaType.other →
      processProviderMessage now bm st msg = st) := by
  refine ⟨rfl, ?_, ?_, ?_, ?_, ?_, ?_, ?_, ?_, ?_, ?_, ?_, by decide, ?_⟩
  · intro m s hc hs
    simp only [extractMessageContent]
    rw [if_pos (by rw [hc]; exact truthyStr_some_ne hs), hc]
    rfl
  · intro m s hc he hs
    simp only [extractMessageContent]
    rw [if_neg (by simp [hc]), if_pos (by rw [he]; exact truthyStr_some_ne hs), he]
    rfl
  · intro m im hc he hi
    simp only [extractMessageContent]
    rw [if_neg (by simp [hc]), if_neg (by simp [he]), hi]
  · intro m am hc he h1 h2
    simp only [extractMessageContent]
    rw [if_neg (by simp [hc]), if_neg (by simp [he]), h1, h2]
  · intro m dm hc he h1 h2 h3
    simp only [extractMessageContent]
    rw [if_neg (by simp [hc]), if_neg (by simp [he]), h1, h2, h3]
  · intro m vm hc he h1 h2 h3 h4
    simp only [extractMessageContent]
    rw [if_neg (by simp [hc]), if_neg (by simp [he]), h1, h2, h3, h4]
  · intro m sm hc he h1 h2 h3 h4 h5
    simp only [extractMessageContent]
    rw [if_neg (by simp [hc]), if_neg (by simp [he]), h1, h2, h3, h4, h5]
  · intro m lm hc he h1 h2 h3 h4 h5 h6
    simp only [extractMessageContent]
    rw [if_neg (by simp [hc]), if_neg (by simp [he]), h1, h2, h3, h4, h5, h6]
  · intro m cm hc he h1 h2 h3 h4 h5 h6 h7
    simp only [extractMessageContent]
    rw [if_neg (by simp [hc]), if_neg (by simp [he]), h1, h2, h3, h4, h5, h6, h7]
  · intro m rm hc he h1 h2 h3 h4 h5 h6 h7 h8
    simp only [extractMessageContent]
    rw [if_neg (by simp [hc]), if_neg (by simp [he]), h1, h2, h3, h4, h5, h6, h7, h8]
  · intro m hc he h1 h2 h3 h4 h5 h6 h7 h8
    simp only [extractMessageContent]
    rw [if_neg (by simp [hc]), if_neg (by simp [he]), h1, h2, h3, h4, h5, h6, h7, h8]
  · intro now bm st msg h1 h2
    unfold processProviderMessage
    split
    · rfl
    · split
      · rfl
      · split
        · rfl
        · dsimp only
          have hcond : (transformMessage now msg).message_content = [] ∧
              (transformMessage now msg).message_media_type = MediaType.other := ⟨h1, h2⟩
          rw [if_pos hcond]

/-- Witness for claim C7: an image payload with the earlier text fields
absent resolves to its caption, the image kind, and its url. -/
theorem C7_content_extraction_witness :
    extractMessageContent (some imgPayloadW) =
      { content := jsOr imgW.caption [], mediaType := MediaType.image,
        mediaUrl := imgW.url } :=
  C7_content_extraction.2.2.2.1 imgPayloadW imgW rfl rfl rfl

/-! ### Claim C8 -/

/-- Incoming provider message with no read receipt. -/
def w8msg : EvolutionMessage :=
  { id := "e8".toList
    key := { id := "ek8".toList, fromMe := false,
             remoteJid := "971503333333@s.whatsapp.net".toList, remoteJidAlt := none }
    pushName := "Patient".toList
    message := some { conversation := some ("need an appointment".toList) }
    messageTimestamp := 3000
    messageUpdate := [] }

/-- First conversation of the claim C8 witness run. -/
def convW8 : GroupedConversation :=
  (fetchGroupedConversationsModel 0 false [] (Except.ok ([w8msg], 1, 1)) (Except.ok [])
    (Except.ok []) (Except.ok []) (Except.ok []) (Except.ok [])).headD blankConv

/-- Claim C8: in every produced conversation the last_message field is
the final element of the non-empty sorted message list and the
unread_count is the number of incoming messages whose status is not
read; the conversation list is sorted descending by the last message
timestamp. -/
theorem C8_aggregation (now : Int) (fresh : Bool) (cache : BotMap)
    (provResp : Except Unit (List EvolutionMessage × Int × Int))
    (botResp : Except Unit (List N8NChatHistory))
    (chatNums convNums : Except Unit (List (List Char)))
    (chatTab : Except Unit (List N8NChatHistory))
    (convTab : Except Unit (List ConversationLog)) :
    (∀ conv ∈ fetchGroupedConversationsModel now fresh cache provResp botResp
        chatNums convNums chatTab convTab,
      conv.messages ≠ [] ∧
      conv.messages.getLast? = some conv.last_message ∧
      conv.unread_count = (conv.messages.filter (fun m =>
        decide (m.message_type = Direction.incoming ∧ m.status ≠ readStat))).length) ∧
    List.Pairwise (fun a b : GroupedConversation =>
        b.last_message.timestamp ≤ a.last_message.timestamp)
      (fetchGroupedConversationsModel now fresh cache provResp botResp
        chatNums convNums chatTab convTab) := by
  constructor
  · intro conv hconv
    obtain ⟨phone, msgs, _, hmk⟩ := mem_model hconv
    obtain ⟨hmsgs, hlast, hunread, _⟩ := mkConv_some hmk
    refine ⟨?_, hlast, hunread⟩
    intro hnil
    rw [hnil] at hlast
    simp at hlast
  · unfold fetchGroupedConversationsModel
    dsimp only
    exact (pairwise_sortByKey (fun g : GroupedConversation =>
      -(g.last_message.timestamp)) _).imp (fun h => by omega)

/-- Witness for claim C8 on a concrete one-message run. -/
theorem C8_aggregation_witness :
    convW8.messages ≠ [] ∧
    convW8.messages.getLast? = some convW8.last_message ∧
    convW8.unread_count = (convW8.messages.filter (fun m =>
      decide (m.message_type = Direction.incoming ∧ m.status ≠ readStat))).length :=
  (C8_aggregation 0 false [] (Except.ok ([w8msg], 1, 1)) (Except.ok []) (Except.ok [])
    (Except.ok []) (Except.ok []) (Except.ok [])).1 convW8 (by decide)

/-! ### Claim C9 -/

/-- Claim C9: no entry point propagates a failure, each returning its
best-effort default when its sources fail (the generation-log fetch
returning its previous cache, which is empty when cold), and a single
failed source contributes nothing: the pipeline output equals the
output obtained from that source succeeding with an empty result. -/
theorem C9_error_handling :
    (∀ u : Unit, fetchMessagesModel (Except.error u) =
      { messages := [], total := 0, pages := 0 }) ∧
    (∀ (fresh : Bool) (u : Unit), fetchBotMessagesModel fresh [] (Except.error u) = []) ∧
    (∀ u v : Unit,
      fetchAllConversationNumbersModel (Except.error u) (Except.error v) = []) ∧
    (∀ (p : List Char) (u v : Unit),
      fetchSupabaseMessagesModel p (Except.error u) (Except.error v) = []) ∧
    (∀ u : Unit, fetchMediaBase64Model (Except.error u) = none) ∧
    (∀ (now : Int) (fresh : Bool) (u1 u2 u3 u4 u5 u6 : Unit),
      fetchGroupedConversationsModel now fresh [] (Except.error u1) (Except.error u2)
        (Except.error u3) (Except.error u4) (Except.error u5) (Except.error u6) = []) ∧
    (∀ (now : Int) (fresh : Bool) (cache : BotMap)
        (botResp : Except Unit (List N8NChatHistory))
        (chatNums convNums : Except Unit (List (List Char)))
        (chatTab : Except Unit (List N8NChatHistory))
        (convTab : Except Unit (List ConversationLog)) (u : Unit),
      fetchGroupedConversationsModel now fresh cache (Except.error u) botResp chatNums
          convNums chatTab convTab =
        fetchGroupedConversationsModel now fresh cache (Except.ok ([], 0, 0)) botResp
          chatNums convNums chatTab convTab) ∧
    (∀ (now : Int) (fresh : Bool)
        (provResp : Except Unit (List EvolutionMessage × Int × Int))
        (chatNums convNums : Except Unit (List (List Char)))
        (chatTab : Except Unit (List N8NChatHistory))
        (convTab : Except Unit (List ConversationLog)) (u : Unit),
      fetchGroupedConversationsModel now fresh [] provResp (Except.error u) chatNums
          convNums chatTab convTab =
        fetchGroupedConversationsModel now fresh [] provResp (Except.ok []) chatNums
          convNums chatTab convTab) ∧
    (∀ (now : Int) (fresh : Bool) (cache : BotMap)
        (provResp : Except Unit (List EvolutionMessage × Int × Int))
        (botResp : Except Unit (List N8NChatHistory))
        (convNums : Except Unit (List (List Char)))
        (chatTab : Except Unit (List N8NChatHistory))
        (convTab : Except Unit (List ConversationLog)) (u : Unit),
      fetchGroupedConversationsModel now fresh cache provResp botResp (Except.error u)
          convNums chatTab convTab =
        fetchGroupedConversationsModel now fresh cache provResp botResp (Except.ok [])
          convNums chatTab convTab) ∧
    (∀ (now : Int) (fresh : Bool) (cache : BotMap)
        (provResp : Except Unit (List EvolutionMessage × Int × Int))
        (botResp : Except Unit (List N8NChatHistory))
        (chatNums : Except Unit (List (List Char)))
        (chatTab : Except Unit (List N8NChatHistory))
        (convTab : Except Unit (List ConversationLog)) (u : Unit),
      fetchGroupedConversationsModel now fresh cache provResp botResp chatNums
          (Except.error u) chatTab convTab =
        fetchGroupedConversationsModel now fresh cache provResp botResp chatNums
          (Except.ok []) chatTab convTab) ∧
    (∀ (now : Int) (fresh : Bool) (cache : BotMap)
        (provResp : Except Unit (List EvolutionMessage × Int × Int))
        (botResp : Except Unit (List N8NChatHistory))
        (chatNums convNums : Except Unit (List (List Char)))
        (convTab : Except Unit (List ConversationLog)) (u : Unit),
      fetchGroupedConversationsModel now fresh cache provResp botResp chatNums
          convNums (Except.error u) convTab =
        fetchGroupedConversationsModel now fresh cache provResp botResp chatNums
          convNums (Except.ok []) convTab) ∧
    (∀ (now : Int) (fresh : Bool) (cache : BotMap)
        (provResp : Except Unit (List EvolutionMessage × Int × Int))
        (botResp : Except Unit (List N8NChatHistory))
        (chatNums convNums : Except Unit (List (List Char)))
        (chatTab : Except Unit (List N8NChatHistory)) (u : Unit),
      fetchGroupedConversationsModel now fresh cache provResp botResp chatNums
          convNums chatTab (Except.error u) =
        fetchGroupedConversationsModel now fresh cache provResp botResp chatNums
          convNums chatTab (Except.ok [])) := by
  refine ⟨fun u => rfl, ?_, fun u v => rfl, fun p u v => rfl, fun u => rfl,
    ?_, fun now fresh cache botResp chatNums convNums chatTab convTab u => rfl,
    ?_, fun now fresh cache provResp botResp convNums chatTab convTab u => rfl,
    fun now fresh cache provResp botResp chatNums chatTab convTab u => rfl,
    fun now fresh cache provResp botResp chatNums convNums convTab u => rfl,
    fun now fresh cache provResp botResp chatNums convNums chatTab u => rfl⟩
  · intro fresh u
    cases fresh <;> rfl
  · intro now fresh u1 u2 u3 u4 u5 u6
    cases fresh <;> rfl
  · intro now fresh provResp chatNums convNums chatTab convTab u
    cases fresh <;> rfl

/-! ### Claim C10 -/

/-- Claim C10: deduplication is keep-first with fixed source priority:
both merge loops leave the earlier-processed list as an unchanged
prefix of the result and append only a sublist of the later source, so
a provider message is never removed or replaced by a log duplicate, and
an n8n message is never removed or replaced by a conversation_logs
duplicate. -/
theorem C10_keep_first :
    (∀ existing sb : List ChatMessage, ∃ rest : List ChatMessage,
      rest.Sublist sb ∧ mergeSupabaseMessages existing sb = existing ++ rest) ∧
    (∀ (p : List Char) (start : List ChatMessage) (rows : List ConversationLog),
      ∃ rest : List ChatMessage,
        rest.Sublist (rows.map (convRowToMsg p)) ∧
        convLogsFold p start rows = start ++ rest) := by
  constructor
  · intro ex sb
    exact mergeSupabaseMessages_eq_append sb ex
  · intro p start rows
    exact convLogsFold_eq_append p rows start

end EliteLife
